import Mathlib

/-!
# CatPix raster editing engine — shallow embedding and verification

This file embeds the core raster-editing code of the CatPix pixel-art editor
in Lean 4 and settles a list of claims about it.

Conventions of the embedding:

* An `ImageData` buffer is modelled pixel-granularly: `Img` carries `width`,
  `height` and a flat row-major `List RGBA`.  The JS code always addresses the
  underlying `Uint8ClampedArray` at indices of the form `pixelIndex * 4 + k`
  with `k < 4`, so the four bytes of one pixel are always read/written
  together and the pixel-granular model is faithful.
* Reads of a `Uint8ClampedArray` outside its range yield `undefined` in JS,
  which is stored back as the byte `0`; this is modelled by a default of
  `RGBA.transparent` (`getD` / `Img.atI`).  Writes outside the range are
  silently ignored by JS typed arrays; `List.set` out of range is likewise a
  no-op, and `Img.setI` makes the guard explicit for `Int` indices.
* JS numbers holding pixel coordinates are modelled as `Nat` where the source
  guarantees non-negativity and as `Int` where negatives can reach the code
  (selection rectangles, paste offsets).
-/
/-- One RGBA pixel, channels 0..255 as in a `Uint8ClampedArray`. -/
structure RGBA where
  r : Nat
  g : Nat
  b : Nat
  a : Nat
deriving DecidableEq, Repr

/-- The fully transparent black pixel `(0,0,0,0)`: the value of a freshly
allocated `ImageData` and of an out-of-range read. -/
def RGBA.transparent : RGBA := ⟨0, 0, 0, 0⟩

/-- A raster buffer: `ImageData` with pixel-granular row-major data. -/
structure Img where
  width : Nat
  height : Nat
  data : List RGBA
deriving DecidableEq, Repr

/-- Read pixel `i` (JS `data[i*4] …`), out-of-range reads give zeros. -/
def Img.at (img : Img) (i : Nat) : RGBA := img.data.getD i RGBA.transparent

/-- Read at a possibly negative index, as JS does with `Int` arithmetic. -/
def Img.atI (img : Img) (i : Int) : RGBA :=
  if 0 ≤ i then img.data.getD i.toNat RGBA.transparent else RGBA.transparent

/-- Write at a possibly negative index; JS typed arrays silently drop
out-of-range writes, as does `List.set`. -/
def listSetI (l : List RGBA) (i : Int) (v : RGBA) : List RGBA :=
  if 0 ≤ i then l.set i.toNat v else l

/-! ## Flood fill (`src/unnamed/part_003`, `floodFill`) -/

/-- `Math.abs(a - b)` on byte channels. -/
def chanDist (a b : Nat) : Nat := ((a : Int) - (b : Int)).natAbs

/-- The per-pixel tolerance match of `floodFill` against the seed color
(`matches` in the source): every channel within `tolerance` of the target. -/
def matchesVal (v target : RGBA) (tolerance : Nat) : Bool :=
  chanDist v.r target.r ≤ tolerance &&
  chanDist v.g target.g ≤ tolerance &&
  chanDist v.b target.b ≤ tolerance &&
  chanDist v.a target.a ≤ tolerance

/-- `matches(getIdx(x, y))` : read the current (mutating) data at pixel
`y*w + x` and compare with the seed color. -/
def matchesAt (data : List RGBA) (target : RGBA) (tolerance w x y : Nat) : Bool :=
  matchesVal (data.getD (y * w + x) RGBA.transparent) target tolerance

/-- The `while (left > 0 && matches(getIdx(left-1,y)) && !visited[y*w+left-1])
left--` scan of `floodFill`, returning the final `left`. -/
def scanLeft (data : List RGBA) (visited : List Bool) (target : RGBA)
    (tolerance w y : Nat) : Nat → Nat
  | 0 => 0
  | l + 1 =>
    if matchesAt data target tolerance w l y && !(visited.getD (y * w + l) false) then
      scanLeft data visited target tolerance w y l
    else
      l + 1

/-- One step of the `while (right < w-1 && matches(getIdx(right+1,y)) &&
!visited[y*w+right+1]) right++` scan of `floodFill`, with structural fuel so
that the definition evaluates inside the kernel.  The loop increments `right`
while `right < w-1`, so it runs at most `w - right - 1` times and the fuel
`w - right` given to it by `scanRight` is never exhausted before the guard
fails: the fueled function computes exactly the `while` loop's result. -/
def scanRightFuel (data : List RGBA) (visited : List Bool) (target : RGBA)
    (tolerance w y : Nat) : Nat → Nat → Nat
  | 0, right => right
  | fuel + 1, right =>
    if decide (right + 1 < w) && matchesAt data target tolerance w (right + 1) y &&
        !(visited.getD (y * w + (right + 1)) false) then
      scanRightFuel data visited target tolerance w y fuel (right + 1)
    else
      right

/-- The right scan of `floodFill` (see `scanRightFuel`). -/
def scanRight (data : List RGBA) (visited : List Bool) (target : RGBA)
    (tolerance w y : Nat) (right : Nat) : Nat :=
  scanRightFuel data visited target tolerance w y (w - right) right

/-- State of the flood-fill loop: the pixel data, the visited mask and the
work stack (JS `push`/`pop` on the end of the array ≙ cons/head here). -/
structure FloodState where
  data : List RGBA
  visited : List Bool
  stack : List (Nat × Nat)
deriving Repr

/-- One row-fill step of `floodFill`'s `for (let px = left; px <= right; …)`
body: mark visited, write `fillColor`, and push unvisited matching pixels of
the rows above and below. -/
def fillRowStep (target fillColor : RGBA) (tolerance w h : Nat) (y : Nat)
    (st : FloodState) (px : Nat) : FloodState :=
  let visited := st.visited.set (y * w + px) true
  let data := st.data.set (y * w + px) fillColor
  let stack :=
    if 0 < y && !(visited.getD ((y - 1) * w + px) false) &&
        matchesAt data target tolerance w px (y - 1) then
      (px, y - 1) :: st.stack
    else st.stack
  let stack :=
    if y + 1 < h && !(visited.getD ((y + 1) * w + px) false) &&
        matchesAt data target tolerance w px (y + 1) then
      (px, y + 1) :: stack
    else stack
  ⟨data, visited, stack⟩

/-- The body of `floodFill`'s `while (stack.length > 0)` loop, with explicit
fuel (the JS loop terminates via the visited mask; the fuel passed by
`floodFill` is large enough for every terminating run and both sides of every
theorem below use the same fuel). -/
def floodLoop (target fillColor : RGBA) (tolerance w h : Nat) :
    Nat → FloodState → List RGBA
  | 0, st => st.data
  | _ + 1, ⟨data, _, []⟩ => data
  | fuel + 1, ⟨data, visited, (x, y) :: stack⟩ =>
    let pixelIdx := y * w + x
    if visited.getD pixelIdx false then
      floodLoop target fillColor tolerance w h fuel ⟨data, visited, stack⟩
    else
      let visited := visited.set pixelIdx true
      if !matchesAt data target tolerance w x y then
        floodLoop target fillColor tolerance w h fuel ⟨data, visited, stack⟩
      else
        let left := scanLeft data visited target tolerance w y x
        let right := scanRight data visited target tolerance w y x
        let st := (List.range' left (right + 1 - left)).foldl
          (fillRowStep target fillColor tolerance w h y) ⟨data, visited, stack⟩
        floodLoop target fillColor tolerance w h fuel st

/-- `floodFill(imageData, startX, startY, fillColor, tolerance)`:
scanline flood fill; returns an unchanged copy when the seed pixel already
equals `fillColor` in all four channels. -/
def floodFill (img : Img) (startX startY : Nat) (fillColor : RGBA)
    (tolerance : Nat) : Img :=
  let w := img.width
  let h := img.height
  let data := img.data
  let target := data.getD (startY * w + startX) RGBA.transparent
  if target.r = fillColor.r ∧ target.g = fillColor.g ∧ target.b = fillColor.b ∧
      target.a = fillColor.a then
    ⟨w, h, data⟩
  else
    let visited := List.replicate (w * h) false
    ⟨w, h, floodLoop target fillColor tolerance w h (4 * (w * h) + 4)
      ⟨data, visited, [(startX, startY)]⟩⟩

/-- Lockstep relation between the pixel data of the two runs: every cell holds
either the common base color on both sides, or the two fill colors. -/
def FloodRel (base c1 c2 : RGBA) (d1 d2 : List RGBA) : Prop :=
  d1.length = d2.length ∧
  ∀ i, i < d1.length →
    (d1.getD i RGBA.transparent = base ∧ d2.getD i RGBA.transparent = base) ∨
    (d1.getD i RGBA.transparent = c1 ∧ d2.getD i RGBA.transparent = c2)

/-- Lockstep relation between whole loop states. -/
def StRel (base c1 c2 : RGBA) (s1 s2 : FloodState) : Prop :=
  FloodRel base c1 c2 s1.data s2.data ∧ s1.visited = s2.visited ∧ s1.stack = s2.stack

/-- The uniform `w × h` buffer of one color. -/
def uniformImg (w h : Nat) (c : RGBA) : Img := ⟨w, h, List.replicate (w * h) c⟩

/-! ## Scatter machinery

The geometric transforms and region operations are all nested `for` loops
writing pixels (`List.set`) into a destination buffer.  `writeList` is the
common form: a left fold of `set` over a list of `(position, value)` writes.
-/

/-- Apply a list of `(position, value)` writes, in order, by `List.set`. -/
def writeList (ws : List (Nat × α)) (init : List α) : List α :=
  ws.foldl (fun acc pv => acc.set pv.1 pv.2) init

/-- The row-major traversal order of a nested `for (y) for (x)` loop. -/
def gridPairs (h w : Nat) : List (Nat × Nat) :=
  (List.range h).flatMap (fun y => (List.range w).map (fun x => (y, x)))

/-! ## Geometric transforms (`src/src/utils/transform.ts`) -/

/-- `'cw' | 'ccw'` -/
inductive Direction where
  | cw
  | ccw
deriving DecidableEq, Repr

/-- `'horizontal' | 'vertical'` -/
inductive Axis where
  | horizontal
  | vertical
deriving DecidableEq, Repr

/-- `rotateImageData90(imageData, direction)`: the result is a fresh
`ImageData(h, w)` (all zeros) into which each source pixel `(x, y)` is copied
at `(dstX, dstY)`; for `cw`, `dstX = h-1-y, dstY = x`, for `ccw`,
`dstX = y, dstY = w-1-x`; the destination row length is `h`. -/
def rotateImageData90 (img : Img) (direction : Direction) : Img :=
  let w := img.width
  let h := img.height
  let dst := (List.range h).foldl (fun acc y =>
    (List.range w).foldl (fun acc2 x =>
      let dstX := match direction with | .cw => h - 1 - y | .ccw => y
      let dstY := match direction with | .cw => x | .ccw => w - 1 - x
      acc2.set (dstY * h + dstX) (img.at (y * w + x))) acc)
    (List.replicate (h * w) RGBA.transparent)
  ⟨h, w, dst⟩

/-- `flipImageData(imageData, axis)`: same dimensions, `horizontal` mirrors
`x ↦ w-1-x`, `vertical` mirrors `y ↦ h-1-y`. -/
def flipImageData (img : Img) (axis : Axis) : Img :=
  let w := img.width
  let h := img.height
  let dst := (List.range h).foldl (fun acc y =>
    (List.range w).foldl (fun acc2 x =>
      let dstX := match axis with | .horizontal => w - 1 - x | .vertical => x
      let dstY := match axis with | .horizontal => y | .vertical => h - 1 - y
      acc2.set (dstY * w + dstX) (img.at (y * w + x))) acc)
    (List.replicate (w * h) RGBA.transparent)
  ⟨w, h, dst⟩

/-- The destination index written by `rotateImageData90` for source `(y, x)`. -/
def rotPos (w h : Nat) (direction : Direction) (y x : Nat) : Nat :=
  match direction with
  | .cw => x * h + (h - 1 - y)
  | .ccw => (w - 1 - x) * h + y

/-- The destination index written by `flipImageData` for source `(y, x)`. -/
def flipPos (w h : Nat) (axis : Axis) (y x : Nat) : Nat :=
  match axis with
  | .horizontal => y * w + (w - 1 - x)
  | .vertical => (h - 1 - y) * w + x

@[simp] theorem rotateImageData90_width (img : Img) (dir : Direction) :
    (rotateImageData90 img dir).width = img.height := rfl

@[simp] theorem rotateImageData90_height (img : Img) (dir : Direction) :
    (rotateImageData90 img dir).height = img.width := rfl

@[simp] theorem flipImageData_width (img : Img) (axis : Axis) :
    (flipImageData img axis).width = img.width := rfl

@[simp] theorem flipImageData_height (img : Img) (axis : Axis) :
    (flipImageData img axis).height = img.height := rfl

/-- The source index a rotated pixel `j` was copied from. -/
def rotSrc (w h : Nat) (dir : Direction) (j : Nat) : Nat :=
  match dir with
  | .cw => (h - 1 - j % h) * w + j / h
  | .ccw => (j % h) * w + (w - 1 - j / h)

/-- The source index a flipped pixel `j` was copied from. -/
def flipSrc (w h : Nat) (axis : Axis) (j : Nat) : Nat :=
  match axis with
  | .horizontal => (j / w) * w + (w - 1 - j % w)
  | .vertical => (h - 1 - j / w) * w + j % w

/-! ## Symmetry resolver (`src/src/hooks/useSymmetry.ts`, `getMirroredPixels`)

The dedup key is the JS expression `(y << 16) | x`.  JS coerces both operands
to 32-bit integers, so the key is the 32-bit pattern
`lor ((y mod 2^32) * 2^16 mod 2^32) (x mod 2^32)`; two keys are equal exactly
when the signed 32-bit values are equal, i.e. when the patterns are equal. -/

/-- `(y << 16) | x` on 32-bit patterns. -/
def jsKey (x y : Nat) : Nat :=
  ((y % 4294967296) * 65536 % 4294967296) ||| (x % 4294967296)

/-- The `add` closure of `getMirroredPixels`: skip when the key was seen,
else record the key and append the point. -/
def mirrorAdd (acc : List Nat × List (Nat × Nat)) (x y : Nat) :
    List Nat × List (Nat × Nat) :=
  let key := jsKey x y
  if key ∈ acc.1 then acc else (acc.1 ++ [key], acc.2 ++ [(x, y)])

/-- `getMirroredPixels(px, py)` with options
`{horizontal, vertical, width, height}`: the original point, plus the
vertical mirror `(width-1-px, py)`, the horizontal mirror `(px, height-1-py)`
and the diagonal mirror, each deduplicated by `jsKey`.  The no-symmetry fast
path returns the singleton. -/
def getMirroredPixels (horizontal vertical : Bool) (width height px py : Nat) :
    List (Nat × Nat) :=
  if !horizontal && !vertical then [(px, py)]
  else
    let mirrorX := width - 1 - px
    let mirrorY := height - 1 - py
    let acc0 := mirrorAdd ([], []) px py
    let acc1 := if vertical then mirrorAdd acc0 mirrorX py else acc0
    let acc2 := if horizontal then mirrorAdd acc1 px mirrorY else acc1
    let acc3 := if vertical && horizontal then mirrorAdd acc2 mirrorX mirrorY
      else acc2
    acc3.2

/-! ## Selection and clipboard region operations (`src/unnamed/part_003`)

`SelectionRect` is `{x, y, w, h}`.  `x`/`y` are modelled as `Int` (arrow-key
moves can push a selection to negative coordinates), `w`/`h` as `Nat`
(`copyRegion` constructs `new ImageData(w, h)`, which throws for
non-positive sizes, and every rectangle the editor builds has `w, h ≥ 1`). -/
structure SelectionRect where
  x : Int
  y : Int
  w : Nat
  h : Nat
deriving DecidableEq, Repr

/-- `copyRegion(imageData, rect)`: an exact pixel copy of the rectangle into
a fresh `w×h` buffer; out-of-range source reads store `undefined`, i.e.
zeros (and index arithmetic is flat, so a rectangle past the right edge
reads wrapped pixels of the following row, exactly as in JS). -/
def copyRegion (img : Img) (rect : SelectionRect) : Img :=
  let w := rect.w
  let h := rect.h
  let srcW := img.width
  let data := (List.range h).foldl (fun acc row =>
    (List.range w).foldl (fun acc2 col =>
      acc2.set (row * w + col)
        (img.atI ((rect.y + row) * srcW + (rect.x + col)))) acc)
    (List.replicate (w * h) RGBA.transparent)
  ⟨w, h, data⟩

/-- `pasteRegion(target, source, x, y)`: draw `source` over a copy of
`target` at offset `(x, y)`; out-of-bounds destination pixels are skipped
and fully transparent source pixels do not overwrite the destination. -/
def pasteRegion (target source : Img) (x y : Int) : Img :=
  let tW := target.width
  let tH := target.height
  let data := (List.range source.height).foldl (fun acc (row : Nat) =>
    (List.range source.width).foldl (fun acc2 (col : Nat) =>
      let tx : Int := x + col
      let ty : Int := y + row
      if tx < 0 ∨ tx ≥ tW ∨ ty < 0 ∨ ty ≥ tH then acc2
      else
        let srcPix := source.at (row * source.width + col)
        if srcPix.a = 0 then acc2
        else acc2.set ((ty * tW + tx)).toNat srcPix) acc)
    target.data
  ⟨tW, tH, data⟩

/-- `clearRegion(imageData, rect)`: write transparent black over the
rectangle on a copy of the buffer.  There is no clamping: the flat index
`(rect.y+row)*w + (rect.x+col)` may wrap into other rows, and only writes
outside the backing array are dropped (JS typed-array semantics). -/
def clearRegion (img : Img) (rect : SelectionRect) : Img :=
  let w := img.width
  let data := (List.range rect.h).foldl (fun acc (row : Nat) =>
    (List.range rect.w).foldl (fun acc2 (col : Nat) =>
      listSetI acc2 ((rect.y + row) * w + (rect.x + col)) RGBA.transparent) acc)
    img.data
  ⟨img.width, img.height, data⟩

/-- The single optional write performed by the paste loop at source cell
`p = (row, col)`: `none` when the destination falls outside the target or
the source pixel is fully transparent. -/
def pasteWrite (target source : Img) (x y : Int) (p : Nat × Nat) :
    Option (Nat × RGBA) :=
  let tW := target.width
  let tH := target.height
  let tx : Int := x + p.2
  let ty : Int := y + p.1
  if tx < 0 ∨ tx ≥ tW ∨ ty < 0 ∨ ty ≥ tH then none
  else
    let srcPix := source.at (p.1 * source.width + p.2)
    if srcPix.a = 0 then none
    else some ((ty * tW + tx).toNat, srcPix)

/-- A destination pixel `(px, py)` is covered by the paste exactly when the
matching source pixel exists and has nonzero alpha. -/
def pasteCovers (source : Img) (x y : Int) (px py : Nat) : Prop :=
  0 ≤ (px : Int) - x ∧ (px : Int) - x < source.width ∧
    0 ≤ (py : Int) - y ∧ (py : Int) - y < source.height ∧
    (source.at (((py : Int) - y).toNat * source.width +
      ((px : Int) - x).toNat)).a ≠ 0

instance (source : Img) (x y : Int) (px py : Nat) :
    Decidable (pasteCovers source x y px py) :=
  inferInstanceAs (Decidable (0 ≤ (px : Int) - x ∧ (px : Int) - x < source.width ∧
    0 ≤ (py : Int) - y ∧ (py : Int) - y < source.height ∧
    (source.at (((py : Int) - y).toNat * source.width +
      ((px : Int) - x).toNat)).a ≠ 0))

/-! ## Layer flattening (`src/src/state/layers.ts`, `flattenLayers`)

`flattenLayers` composites through an HTML canvas.  The canvas is modelled by
the HTML specification's semantics: the backing store holds premultiplied
alpha, `putImageData` premultiplies each channel (`c * a / 255`, rounded to a
byte), `drawImage` source-over-composites the premultiplied source scaled by
`globalAlpha` onto the canvas, and `getImageData` un-premultiplies (a pixel
with alpha `0` reads back as `(0,0,0,0)`).  Intermediate canvas values are
kept as exact rationals; byte quantization (round half up) is applied where
the store or readback forces it.  The theorems below rely only on pixels
with alpha `0` or `255`, where every browser's rounding agrees. -/

/-- `Layer` of `src/src/state/layers.ts` (opacity is a JS number in 0–1,
modelled as a rational). -/
structure Layer where
  id : String
  name : String
  imageData : Img
  visible : Bool
  opacity : ℚ
deriving DecidableEq

/-- Premultiply one channel byte: `round(c * a / 255)`. -/
def premulByte (c a : Nat) : Nat := (c * a + 127) / 255

/-- `putImageData`: the stored premultiplied pixel. -/
def putPremul (p : RGBA) : RGBA :=
  ⟨premulByte p.r p.a, premulByte p.g p.a, premulByte p.b p.a, p.a⟩

/-- A canvas pixel: premultiplied channels as exact rationals. -/
structure QPix where
  r : ℚ
  g : ℚ
  b : ℚ
  a : ℚ
deriving DecidableEq

/-- The cleared canvas pixel (`clearRect`). -/
def QPix.zero : QPix := ⟨0, 0, 0, 0⟩

/-- Premultiplied source-over of a stored source pixel scaled by
`globalAlpha` onto a canvas pixel. -/
def srcOver (ga : ℚ) (s : RGBA) (d : QPix) : QPix :=
  let sr : ℚ := ga * s.r
  let sg : ℚ := ga * s.g
  let sb : ℚ := ga * s.b
  let sa : ℚ := ga * s.a
  ⟨sr + d.r * (1 - sa / 255), sg + d.g * (1 - sa / 255),
    sb + d.b * (1 - sa / 255), sa + d.a * (1 - sa / 255)⟩

/-- Quantize a rational to a byte, rounding half up and clamping at 255
(`⌊q + 1/2⌋` written on the numerator/denominator so it computes). -/
def qByte (q : ℚ) : Nat := min 255 (Int.fdiv (2 * q.num + q.den) (2 * q.den)).toNat

/-- `getImageData`: un-premultiply one canvas pixel. -/
def getPix (p : QPix) : RGBA :=
  let a := qByte p.a
  if a = 0 then RGBA.transparent
  else ⟨qByte (p.r * 255 / p.a), qByte (p.g * 255 / p.a),
    qByte (p.b * 255 / p.a), a⟩

/-- One iteration of the `for (const layer of layers)` loop: skip invisible
layers, otherwise draw the layer's premultiplied pixels over the canvas with
`globalAlpha = layer.opacity`.  (All of the app's layers share the canvas
dimensions, so the temp canvas holds exactly the layer's pixels.) -/
def compositeLayer (w h : Nat) (canvas : List QPix) (layer : Layer) : List QPix :=
  if layer.visible then
    (List.range (w * h)).map (fun i =>
      srcOver layer.opacity (putPremul (layer.imageData.at i))
        (canvas.getD i QPix.zero))
  else canvas

/-- `flattenLayers(layers)`: composite all visible layers bottom-up onto a
cleared canvas sized after the first layer, then read the canvas back.  The
embedding is pure, so the input layers are untouched by construction. -/
def flattenLayers (layers : List Layer) : Img :=
  match layers with
  | [] => ⟨1, 1, List.replicate 1 RGBA.transparent⟩
  | l0 :: _ =>
    let w := l0.imageData.width
    let h := l0.imageData.height
    let canvas := layers.foldl (compositeLayer w h)
      (List.replicate (w * h) QPix.zero)
    ⟨w, h, canvas.map getPix⟩

/-- A byte pixel viewed as exact canvas rationals. -/
def RGBAq (p : RGBA) : QPix := ⟨(p.r : ℚ), (p.g : ℚ), (p.b : ℚ), (p.a : ℚ)⟩

/-! ## App reducer and undo history (`src/src/state/appReducer.ts`,
`src/unnamed/part_004`)

The reducer model mirrors the TypeScript source case by case.  Conventions:

* `appReducerF` returns `none` exactly on the reducer's `return state`
  branches (the same object reference); every other branch builds a fresh
  object, so JS `newPresent === state.present` in `undoReducer` is true
  precisely when `appReducerF` is `none`, even if the new object happens to
  be structurally equal.
* `HTMLImageElement` is opaque (a numeric handle), `ImageData | null` is
  `Option Img`, `editingBankIndex : number | null` is `Option Int` (it can
  go negative — that is the C10 bug).
* `createLayer`/`createLayerFromImageData` generate ids from a module
  counter and `Date.now()`; the model uses a fixed placeholder id, which no
  theorem below depends on (only guard behavior and lengths matter).
* JS `splice`-based reordering is modelled with `take`/`drop`; when
  `fromIndex` is out of range JS would insert `undefined` into the array,
  which a typed list cannot hold — the model inserts nothing, and every
  theorem below constrains `fromIndex` to be in range.
* `UPDATE_ACTIVE_LAYER` guard `!state.activeLayerId` is falsy for both
  `null` and the empty string.
-/

inductive Tool where
  | draw | erase | fill | eyedropper | line | rectangle | selection
deriving DecidableEq

structure SpriteEntry where
  id : String
  name : String
  width : Nat
  height : Nat
  imageData : Img
deriving DecidableEq

structure AppState where
  image : Option Nat
  gridSize : Nat
  tileCountX : Nat
  tileCountY : Nat
  selectedTile : Option (Nat × Nat)
  tileData : Option Img
  activeTool : Tool
  activeColor : String
  sprites : List SpriteEntry
  editingBankIndex : Option Int
  showExportModal : Bool
  showNewProjectModal : Bool
  showAIImportModal : Bool
  layers : List Layer
  activeLayerId : Option String

def initialState : AppState :=
  ⟨none, 32, 1, 1, none, none, .draw, "#000000", [], none, false, false, false,
    [], none⟩

inductive AppAction where
  | setImage (image : Option Nat)
  | setGridSize (gridSize : Nat)
  | setTileCountX (count : Nat)
  | setTileCountY (count : Nat)
  | setSelectedTile (tile : Option (Nat × Nat))
  | setTileData (tileData : Option Img)
  | setActiveTool (tool : Tool)
  | setActiveColor (color : String)
  | setSprites (sprites : List SpriteEntry)
  | setEditingBankIndex (index : Option Int)
  | setShowExportModal (b : Bool)
  | setShowNewProjectModal (b : Bool)
  | setShowAIImportModal (b : Bool)
  | loadImage (image : Nat)
  | newProject (tileSize : Nat) (blankData : Img)
  | selectTile (col row : Nat) (tileData : Img)
  | clearTile
  | saveToBank (entry : SpriteEntry)
  | updateInBank (imageData : Img)
  | removeSprite (id : String)
  | duplicateSprite (id : String) (clone : SpriteEntry)
  | selectBankSprite (index : Int) (clonedData : Img)
  | aiLoadAsTileset (gridSize : Nat)
  | aiImport (entries : List SpriteEntry)
  | renameSprite (id : String) (name : String)
  | reorderSprites (fromIndex toIndex : Nat)
  | addLayer
  | removeLayer (layerId : String)
  | setActiveLayer (layerId : String)
  | setLayerVisibility (layerId : String) (visible : Bool)
  | setLayerOpacity (layerId : String) (opacity : ℚ)
  | setLayerName (layerId : String) (name : String)
  | reorderLayers (fromIndex toIndex : Nat)
  | updateActiveLayer (imageData : Img)
  | commitStroke
  | clearAllSprites

def createLayerM (width height : Nat) : Layer :=
  ⟨"layer_new", "Layer", ⟨width, height, List.replicate (width * height) RGBA.transparent⟩,
    true, 1⟩

def createLayerFromImageDataM (d : Img) : Layer :=
  ⟨"layer_new", "Layer 1", d, true, 1⟩

def initLayersFromTileData (d : Img) : List Layer × Option String :=
  let layer := createLayerFromImageDataM d
  ([layer], some layer.id)

/-- editingBankIndex adjustment of the REMOVE_SPRITE case. -/
def removeAdjust (removedIdx : Int) (bank : Option Int) : Option Int :=
  match bank with
  | none => none
  | some e =>
    if removedIdx == e then none
    else if removedIdx < e then some (e - 1)
    else some e

/-- editingBankIndex adjustment of the REORDER_SPRITES case. -/
def reorderAdjust (fromIndex toIndex : Nat) (bank : Option Int) : Option Int :=
  match bank with
  | none => none
  | some e =>
    if e == (fromIndex : Int) then some (toIndex : Int)
    else if (fromIndex : Int) < e ∧ (toIndex : Int) ≥ e then some (e - 1)
    else if (fromIndex : Int) > e ∧ (toIndex : Int) ≤ e then some (e + 1)
    else some e

def appReducerF (state : AppState) (action : AppAction) : Option AppState :=
  match action with
  | .setImage image => some { state with image := image }
  | .setGridSize gridSize => some { state with gridSize }
  | .setTileCountX count => some { state with tileCountX := count }
  | .setTileCountY count => some { state with tileCountY := count }
  | .setSelectedTile tile => some { state with selectedTile := tile }
  | .setTileData tileData => some { state with tileData := tileData }
  | .setActiveTool tool => some { state with activeTool := tool }
  | .setActiveColor color => some { state with activeColor := color }
  | .setSprites sprites => some { state with sprites := sprites }
  | .setEditingBankIndex index => some { state with editingBankIndex := index }
  | .setShowExportModal b => some { state with showExportModal := b }
  | .setShowNewProjectModal b => some { state with showNewProjectModal := b }
  | .setShowAIImportModal b => some { state with showAIImportModal := b }
  | .loadImage image =>
    some { state with
      image := some image
      selectedTile := none
      tileData := none
      editingBankIndex := none
      layers := []
      activeLayerId := none }
  | .newProject tileSize blankData =>
    let li := initLayersFromTileData blankData
    some { state with
      showNewProjectModal := false
      gridSize := tileSize
      image := none
      selectedTile := none
      editingBankIndex := none
      tileData := some blankData
      layers := li.1
      activeLayerId := li.2 }
  | .selectTile col row tileData =>
    let li := initLayersFromTileData tileData
    some { state with
      selectedTile := some (col, row)
      editingBankIndex := none
      tileData := some tileData
      layers := li.1
      activeLayerId := li.2 }
  | .clearTile =>
    some { state with
      tileData := none
      selectedTile := none
      editingBankIndex := none
      layers := []
      activeLayerId := none }
  | .saveToBank entry =>
    let next := state.sprites ++ [entry]
    some { state with
      sprites := next
      editingBankIndex := some ((next.length : Int) - 1) }
  | .updateInBank imageData =>
    match state.editingBankIndex with
    | none => none
    | some idx =>
      if idx < 0 ∨ idx ≥ (state.sprites.length : Int) then none
      else
        let updated := { (state.sprites.getD idx.toNat ⟨"", "", 0, 0, ⟨0, 0, []⟩⟩) with
          imageData := imageData }
        some { state with sprites := state.sprites.set idx.toNat updated }
  | .removeSprite id =>
    let removedIdx : Int :=
      match state.sprites.findIdx? (fun s => s.id == id) with
      | some i => (i : Int)
      | none => -1
    let next := state.sprites.filter (fun s => !(s.id == id))
    let newEditIdx := removeAdjust removedIdx state.editingBankIndex
    some { state with sprites := next, editingBankIndex := newEditIdx }
  | .duplicateSprite id clone =>
    match state.sprites.findIdx? (fun s => s.id == id) with
    | none => none
    | some sourceIdx =>
      some { state with sprites := state.sprites.take (sourceIdx + 1) ++
        clone :: state.sprites.drop (sourceIdx + 1) }
  | .selectBankSprite index clonedData =>
    let li := initLayersFromTileData clonedData
    some { state with
      editingBankIndex := some index
      selectedTile := none
      tileData := some clonedData
      layers := li.1
      activeLayerId := li.2 }
  | .aiLoadAsTileset gridSize =>
    some { state with
      showAIImportModal := false
      gridSize := gridSize
      selectedTile := none
      tileData := none
      editingBankIndex := none
      layers := []
      activeLayerId := none }
  | .aiImport entries =>
    some { state with
      showAIImportModal := false
      sprites := state.sprites ++ entries }
  | .renameSprite id name =>
    some { state with sprites := state.sprites.map (fun s =>
      if s.id == id then { s with name := name } else s) }
  | .reorderSprites fromIndex toIndex =>
    let removed := state.sprites.take fromIndex ++ state.sprites.drop (fromIndex + 1)
    let next :=
      match state.sprites[fromIndex]? with
      | some moved => removed.take toIndex ++ moved :: removed.drop toIndex
      | none => removed
    let newEditIdx := reorderAdjust fromIndex toIndex state.editingBankIndex
    some { state with sprites := next, editingBankIndex := newEditIdx }
  | .addLayer =>
    match state.tileData with
    | none => none
    | some td =>
      if state.layers.length = 0 then none
      else if state.layers.length ≥ 8 then none
      else
        let newLayer := createLayerM td.width td.height
        some { state with
          layers := state.layers ++ [newLayer]
          activeLayerId := some newLayer.id }
  | .removeLayer layerId =>
    if state.layers.length ≤ 1 then none
    else
      let filtered := state.layers.filter (fun l => !(l.id == layerId))
      let newActiveId :=
        if state.activeLayerId = some layerId then
          some ((filtered.getLastD ⟨"", "", ⟨0, 0, []⟩, true, 1⟩).id)
        else state.activeLayerId
      some { state with layers := filtered, activeLayerId := newActiveId }
  | .setActiveLayer layerId => some { state with activeLayerId := some layerId }
  | .setLayerVisibility layerId visible =>
    some { state with layers := state.layers.map (fun l =>
      if l.id == layerId then { l with visible := visible } else l) }
  | .setLayerOpacity layerId opacity =>
    some { state with layers := state.layers.map (fun l =>
      if l.id == layerId then { l with opacity := opacity } else l) }
  | .setLayerName layerId name =>
    some { state with layers := state.layers.map (fun l =>
      if l.id == layerId then { l with name := name } else l) }
  | .reorderLayers fromIndex toIndex =>
    let removed := state.layers.take fromIndex ++ state.layers.drop (fromIndex + 1)
    let newLayers :=
      match state.layers[fromIndex]? with
      | some movedLayer => removed.take toIndex ++ movedLayer :: removed.drop toIndex
      | none => removed
    some { state with layers := newLayers }
  | .updateActiveLayer imageData =>
    match state.activeLayerId with
    | none => none
    | some lid =>
      if lid == "" then none
      else some { state with layers := state.layers.map (fun l =>
        if l.id == lid then { l with imageData := imageData } else l) }
  | .commitStroke => none
  | .clearAllSprites =>
    some { state with sprites := [], editingBankIndex := none }

def appReducer (state : AppState) (action : AppAction) : AppState :=
  (appReducerF state action).getD state

def isUndoable : AppAction → Bool
  | .commitStroke | .saveToBank _ | .updateInBank _ | .removeSprite _
  | .duplicateSprite _ _ | .clearTile | .newProject _ _ | .aiImport _
  | .renameSprite _ _ | .reorderSprites _ _ | .addLayer | .removeLayer _
  | .reorderLayers _ _ | .clearAllSprites => true
  | _ => false

structure PartialSnapshot where
  tileData : Option Img
  layers : List Layer
  sprites : List SpriteEntry
  activeLayerId : Option String
  editingBankIndex : Option Int

structure UndoState where
  past : List PartialSnapshot
  present : AppState
  future : List PartialSnapshot

inductive UndoAction where
  | undo
  | redo
  | app (action : AppAction)

def MAX_HISTORY : Nat := 50

def createUndoState (initial : AppState) : UndoState := ⟨[], initial, []⟩

def takeSnapshot (s : AppState) : PartialSnapshot :=
  ⟨s.tileData, s.layers, s.sprites, s.activeLayerId, s.editingBankIndex⟩

def applySnapshot (s : AppState) (snap : PartialSnapshot) : AppState :=
  { s with
    tileData := snap.tileData
    layers := snap.layers
    sprites := snap.sprites
    activeLayerId := snap.activeLayerId
    editingBankIndex := snap.editingBankIndex }

def undoReducer (state : UndoState) (action : UndoAction) : UndoState :=
  match action with
  | .undo =>
    if state.past.length = 0 then state
    else
      let previousSnap := state.past.getLastD ⟨none, [], [], none, none⟩
      ⟨state.past.dropLast, applySnapshot state.present previousSnap,
        takeSnapshot state.present :: state.future⟩
  | .redo =>
    if state.future.length = 0 then state
    else
      let nextSnap := state.future.headD ⟨none, [], [], none, none⟩
      ⟨state.past ++ [takeSnapshot state.present],
        applySnapshot state.present nextSnap, state.future.drop 1⟩
  | .app a =>
    match appReducerF state.present a with
    | none => state
    | some newPresent =>
      if isUndoable a then
        let newPast := state.past ++ [takeSnapshot state.present]
        let newPast2 := if newPast.length > MAX_HISTORY then newPast.drop 1 else newPast
        ⟨newPast2, newPresent, []⟩
      else
        { state with present := newPresent }

def bankIndexValid (s : AppState) : Bool :=
  match s.editingBankIndex with
  | none => true
  | some i => decide (0 ≤ i) && decide (i < (s.sprites.length : Int))

def bankActionOk (s : AppState) : AppAction → Prop
  | .saveToBank _ => True
  | .updateInBank _ => True
  | .removeSprite id => s.sprites.countP (fun e => e.id == id) = 1
  | .duplicateSprite _ _ => True
  | .renameSprite _ _ => True
  | .reorderSprites fromIndex toIndex =>
    fromIndex < s.sprites.length ∧ toIndex < s.sprites.length
  | .aiImport _ => True
  | .clearAllSprites => True
  | _ => False

instance (s : AppState) (a : AppAction) : Decidable (bankActionOk s a) :=
  match a with
  | .saveToBank _ => isTrue trivial
  | .updateInBank _ => isTrue trivial
  | .removeSprite _ => inferInstanceAs (Decidable (_ = 1))
  | .duplicateSprite _ _ => isTrue trivial
  | .renameSprite _ _ => isTrue trivial
  | .reorderSprites _ _ => inferInstanceAs (Decidable (_ ∧ _))
  | .aiImport _ => isTrue trivial
  | .clearAllSprites => isTrue trivial
  | .setImage _ => isFalse (fun h => h)
  | .setGridSize _ => isFalse (fun h => h)
  | .setTileCountX _ => isFalse (fun h => h)
  | .setTileCountY _ => isFalse (fun h => h)
  | .setSelectedTile _ => isFalse (fun h => h)
  | .setTileData _ => isFalse (fun h => h)
  | .setActiveTool _ => isFalse (fun h => h)
  | .setActiveColor _ => isFalse (fun h => h)
  | .setSprites _ => isFalse (fun h => h)
  | .setEditingBankIndex _ => isFalse (fun h => h)
  | .setShowExportModal _ => isFalse (fun h => h)
  | .setShowNewProjectModal _ => isFalse (fun h => h)
  | .setShowAIImportModal _ => isFalse (fun h => h)
  | .loadImage _ => isFalse (fun h => h)
  | .newProject _ _ => isFalse (fun h => h)
  | .selectTile _ _ _ => isFalse (fun h => h)
  | .clearTile => isFalse (fun h => h)
  | .selectBankSprite _ _ => isFalse (fun h => h)
  | .aiLoadAsTileset _ => isFalse (fun h => h)
  | .addLayer => isFalse (fun h => h)
  | .removeLayer _ => isFalse (fun h => h)
  | .setActiveLayer _ => isFalse (fun h => h)
  | .setLayerVisibility _ _ => isFalse (fun h => h)
  | .setLayerOpacity _ _ => isFalse (fun h => h)
  | .setLayerName _ _ => isFalse (fun h => h)
  | .reorderLayers _ _ => isFalse (fun h => h)
  | .updateActiveLayer _ => isFalse (fun h => h)
  | .commitStroke => isFalse (fun h => h)

/-! ## Theorems -/

/-! ## Generic list helpers -/

theorem getD_set_self {l : List α} {i : Nat} {v d : α} (h : i < l.length) :
    (l.set i v).getD i d = v := by
  simp [List.getD_eq_getElem?_getD, List.getElem?_set_self', List.getElem?_eq_getElem h]

theorem getD_set_ne {l : List α} {i j : Nat} {v d : α} (h : i ≠ j) :
    (l.set i v).getD j d = l.getD j d := by
  simp [List.getD_eq_getElem?_getD, List.getElem?_set_ne h]

theorem getD_eq_of_lt {l : List α} {i : Nat} {d : α} (h : i < l.length) :
    l.getD i d = l[i] := by
  simp [List.getD_eq_getElem?_getD, List.getElem?_eq_getElem h]

/-! ## C4: flood fill is a no-op when the seed already has the fill color -/

/-- C4: for every buffer and in-bounds start point, if the pixel at
`(startX, startY)` already equals `fillColor` exactly in all four channels,
`floodFill` returns a buffer equal to the input (no-op, not an error). -/
theorem floodFill_noop (img : Img) (startX startY : Nat) (fillColor : RGBA)
    (tolerance : Nat) (hx : startX < img.width) (hy : startY < img.height)
    (hseed : img.at (startY * img.width + startX) = fillColor) :
    floodFill img startX startY fillColor tolerance = img := by
  obtain ⟨w, h, data⟩ := img
  simp only [Img.at] at hseed
  simp only [floodFill, hseed, and_self, if_pos]

/-- Witness for C4 at a concrete buffer. -/
theorem floodFill_noop_witness :
    floodFill ⟨2, 1, [⟨3, 4, 5, 6⟩, ⟨9, 9, 9, 9⟩]⟩ 0 0 ⟨3, 4, 5, 6⟩ 0 =
      ⟨2, 1, [⟨3, 4, 5, 6⟩, ⟨9, 9, 9, 9⟩]⟩ :=
  floodFill_noop _ 0 0 _ 0 (by decide) (by decide) (by decide)

/-! ## C5: flood fill on a uniform buffer fills everything

The control flow of `floodFill` depends on the fill color only through
(a) the initial guard and (b) `matches` applied to pixels already written.
Two runs on the same buffer with two fill colors that both fail the guard and
both fail `matches` therefore proceed in lockstep; this is proved as a
bisimulation (`floodLoop_rel`) and combined with a concrete run for one
representative fill color. -/

/-- `matchesVal` at tolerance 0 is exact four-channel equality. -/
theorem matchesVal_zero_iff (v t : RGBA) : matchesVal v t 0 = true ↔ v = t := by
  cases v; cases t
  simp only [matchesVal, chanDist, Bool.and_eq_true, decide_eq_true_eq,
    RGBA.mk.injEq]
  omega

theorem matchesAt_rel {base c1 c2 : RGBA} {d1 d2 : List RGBA}
    (target : RGBA) (tol : Nat)
    (hm : matchesVal c1 target tol = matchesVal c2 target tol)
    (hrel : FloodRel base c1 c2 d1 d2) (w : Nat) :
    ∀ x y, matchesAt d2 target tol w x y = matchesAt d1 target tol w x y := by
  intro x y
  unfold matchesAt
  rcases hrel with ⟨hlen, hrel⟩
  by_cases hi : y * w + x < d1.length
  · rcases hrel _ hi with ⟨h1, h2⟩ | ⟨h1, h2⟩ <;> rw [h1, h2]
    exact hm.symm
  · rw [List.getD_eq_getElem?_getD, List.getD_eq_getElem?_getD,
      List.getElem?_eq_none (by omega), List.getElem?_eq_none (by omega)]

theorem scanLeft_congr {d1 d2 : List RGBA} (v : List Bool) (target : RGBA)
    (tol w y : Nat)
    (hmat : ∀ a b, matchesAt d2 target tol w a b = matchesAt d1 target tol w a b) :
    ∀ l, scanLeft d2 v target tol w y l = scanLeft d1 v target tol w y l := by
  intro l
  induction l with
  | zero => rfl
  | succ l ih =>
    rw [scanLeft, scanLeft, hmat]
    split
    · exact ih
    · rfl

theorem scanRight_congr {d1 d2 : List RGBA} (v : List Bool) (target : RGBA)
    (tol w y : Nat)
    (hmat : ∀ a b, matchesAt d2 target tol w a b = matchesAt d1 target tol w a b) :
    ∀ right, scanRight d2 v target tol w y right = scanRight d1 v target tol w y right := by
  have key : ∀ fuel right,
      scanRightFuel d2 v target tol w y fuel right =
        scanRightFuel d1 v target tol w y fuel right := by
    intro fuel
    induction fuel with
    | zero => intro right; rfl
    | succ fuel ih =>
      intro right
      rw [scanRightFuel, scanRightFuel, hmat]
      split
      · exact ih (right + 1)
      · rfl
  exact fun right => key (w - right) right

theorem FloodRel.set {base c1 c2 : RGBA} {d1 d2 : List RGBA}
    (hrel : FloodRel base c1 c2 d1 d2) (idx : Nat) :
    FloodRel base c1 c2 (d1.set idx c1) (d2.set idx c2) := by
  rcases hrel with ⟨hlen, hrel⟩
  refine ⟨by simp [hlen], ?_⟩
  intro i hi
  simp only [List.length_set] at hi
  by_cases hii : i = idx
  · subst hii
    right
    rw [getD_set_self hi, getD_set_self (by omega)]
    exact ⟨rfl, rfl⟩
  · rw [getD_set_ne (Ne.symm hii), getD_set_ne (Ne.symm hii)]
    exact hrel i hi

theorem fillRowStep_rel {base c1 c2 : RGBA} {s1 s2 : FloodState}
    (target : RGBA) (tol w h y px : Nat)
    (hm : matchesVal c1 target tol = matchesVal c2 target tol)
    (hrel : StRel base c1 c2 s1 s2) :
    StRel base c1 c2 (fillRowStep target c1 tol w h y s1 px)
      (fillRowStep target c2 tol w h y s2 px) := by
  obtain ⟨d1, v1, k1⟩ := s1
  obtain ⟨d2, v2, k2⟩ := s2
  rcases hrel with ⟨hdata, hv, hk⟩
  simp only at hdata hv hk
  subst hv hk
  have hdata' := hdata.set (y * w + px)
  have hmat := matchesAt_rel target tol hm hdata' w
  refine ⟨hdata', ?_, ?_⟩ <;>
    simp only [fillRowStep, hmat]

theorem fillRow_fold_rel {base c1 c2 : RGBA}
    (target : RGBA) (tol w h y : Nat)
    (hm : matchesVal c1 target tol = matchesVal c2 target tol)
    (s1 s2 : FloodState)
    (hrel : StRel base c1 c2 s1 s2) (pxs : List Nat) :
    StRel base c1 c2 (pxs.foldl (fillRowStep target c1 tol w h y) s1)
      (pxs.foldl (fillRowStep target c2 tol w h y) s2) := by
  induction pxs generalizing s1 s2 with
  | nil => exact hrel
  | cons px pxs ih =>
    exact ih _ _ (fillRowStep_rel target tol w h y px hm hrel)

theorem floodLoop_rel {base c1 c2 : RGBA} (target : RGBA) (tol w h : Nat)
    (hm : matchesVal c1 target tol = matchesVal c2 target tol) :
    ∀ (fuel : Nat) (s1 s2 : FloodState), StRel base c1 c2 s1 s2 →
      FloodRel base c1 c2 (floodLoop target c1 tol w h fuel s1)
        (floodLoop target c2 tol w h fuel s2) := by
  intro fuel
  induction fuel with
  | zero => intro s1 s2 hrel; exact hrel.1
  | succ fuel ih =>
    intro s1 s2 hrel
    obtain ⟨d1, v1, k1⟩ := s1
    obtain ⟨d2, v2, k2⟩ := s2
    rcases hrel with ⟨hdata, hv, hk⟩
    simp only at hdata hv hk
    subst hv hk
    match k1 with
    | [] => exact hdata
    | (x, y) :: stack =>
      have hmat := matchesAt_rel target tol hm hdata w
      have hsl := scanLeft_congr (v1.set (y * w + x) true) target tol w y hmat x
      have hsr := scanRight_congr (v1.set (y * w + x) true) target tol w y hmat x
      simp only [floodLoop, hmat, hsl, hsr]
      split
      · exact ih _ _ ⟨hdata, rfl, rfl⟩
      · split
        · exact ih _ _ ⟨hdata, rfl, rfl⟩
        · exact ih _ _
            (fillRow_fold_rel target tol w h y hm
              ⟨d1, v1.set (y * w + x) true, stack⟩
              ⟨d2, v1.set (y * w + x) true, stack⟩ ⟨hdata, rfl, rfl⟩ _)

theorem Img.eq_of_parts {a b : Img} (hw : a.width = b.width)
    (hh : a.height = b.height) (hd : a.data = b.data) : a = b := by
  cases a; cases b; simp_all

theorem floodFill_width (img : Img) (sx sy : Nat) (fc : RGBA) (tol : Nat) :
    (floodFill img sx sy fc tol).width = img.width := by
  obtain ⟨w, h, data⟩ := img
  simp only [floodFill]
  split <;> rfl

theorem floodFill_height (img : Img) (sx sy : Nat) (fc : RGBA) (tol : Nat) :
    (floodFill img sx sy fc tol).height = img.height := by
  obtain ⟨w, h, data⟩ := img
  simp only [floodFill]
  split <;> rfl

/-- Lockstep bisimulation lifted to `floodFill`: two fill colors that both
fail the initial guard and agree on `matches` run in lockstep over a buffer
filled entirely with `base`. -/
theorem floodFill_fillColor_rel (base c1 c2 : RGBA) (img : Img)
    (sx sy tol : Nat)
    (hbase : ∀ i, i < img.data.length →
      img.data.getD i RGBA.transparent = base)
    (htarget : img.data.getD (sy * img.width + sx) RGBA.transparent = base)
    (hg1 : ¬(base.r = c1.r ∧ base.g = c1.g ∧ base.b = c1.b ∧ base.a = c1.a))
    (hg2 : ¬(base.r = c2.r ∧ base.g = c2.g ∧ base.b = c2.b ∧ base.a = c2.a))
    (hm : matchesVal c1 base tol = matchesVal c2 base tol) :
    FloodRel base c1 c2 (floodFill img sx sy c1 tol).data
      (floodFill img sx sy c2 tol).data := by
  obtain ⟨w, h, data⟩ := img
  simp only at hbase htarget
  simp only [floodFill, htarget]
  rw [if_neg hg1, if_neg hg2]
  exact floodLoop_rel base tol w h hm _ _ _
    ⟨⟨rfl, fun i hi => Or.inl ⟨hbase i hi, hbase i hi⟩⟩, rfl, rfl⟩

theorem uniformImg_getD (w h : Nat) (c : RGBA) (i : Nat) (hi : i < w * h) :
    (uniformImg w h c).data.getD i RGBA.transparent = c := by
  rw [uniformImg, getD_eq_of_lt (by simpa using hi)]
  exact List.getElem_replicate ..

set_option maxHeartbeats 4000000 in
/-- Kernel evaluation of the six interior starts in column `sx = 1`. -/
theorem floodFill_green_row1 :
    ((List.range 6).all fun b =>
      decide (floodFill (uniformImg 8 8 ⟨255, 0, 0, 255⟩) 1 (b + 1)
        ⟨0, 255, 0, 255⟩ 0 = uniformImg 8 8 ⟨0, 255, 0, 255⟩)) = true := by decide


set_option maxHeartbeats 4000000 in
/-- Kernel evaluation of the six interior starts in column `sx = 2`. -/
theorem floodFill_green_row2 :
    ((List.range 6).all fun b =>
      decide (floodFill (uniformImg 8 8 ⟨255, 0, 0, 255⟩) 2 (b + 1)
        ⟨0, 255, 0, 255⟩ 0 = uniformImg 8 8 ⟨0, 255, 0, 255⟩)) = true := by decide


set_option maxHeartbeats 4000000 in
/-- Kernel evaluation of the six interior starts in column `sx = 3`. -/
theorem floodFill_green_row3 :
    ((List.range 6).all fun b =>
      decide (floodFill (uniformImg 8 8 ⟨255, 0, 0, 255⟩) 3 (b + 1)
        ⟨0, 255, 0, 255⟩ 0 = uniformImg 8 8 ⟨0, 255, 0, 255⟩)) = true := by decide


set_option maxHeartbeats 4000000 in
/-- Kernel evaluation of the six interior starts in column `sx = 4`. -/
theorem floodFill_green_row4 :
    ((List.range 6).all fun b =>
      decide (floodFill (uniformImg 8 8 ⟨255, 0, 0, 255⟩) 4 (b + 1)
        ⟨0, 255, 0, 255⟩ 0 = uniformImg 8 8 ⟨0, 255, 0, 255⟩)) = true := by decide


set_option maxHeartbeats 4000000 in
/-- Kernel evaluation of the six interior starts in column `sx = 5`. -/
theorem floodFill_green_row5 :
    ((List.range 6).all fun b =>
      decide (floodFill (uniformImg 8 8 ⟨255, 0, 0, 255⟩) 5 (b + 1)
        ⟨0, 255, 0, 255⟩ 0 = uniformImg 8 8 ⟨0, 255, 0, 255⟩)) = true := by decide


set_option maxHeartbeats 4000000 in
/-- Kernel evaluation of the six interior starts in column `sx = 6`. -/
theorem floodFill_green_row6 :
    ((List.range 6).all fun b =>
      decide (floodFill (uniformImg 8 8 ⟨255, 0, 0, 255⟩) 6 (b + 1)
        ⟨0, 255, 0, 255⟩ 0 = uniformImg 8 8 ⟨0, 255, 0, 255⟩)) = true := by decide

set_option maxHeartbeats 4000000 in
/-- C5: flood fill on the uniform opaque-red 8×8 buffer, started at any
interior point with tolerance 0 and any fill color different from red,
yields the buffer entirely in the fill color. -/
theorem floodFill_uniform_red_fills (sx sy : Nat) (fc : RGBA)
    (hx1 : 1 ≤ sx) (hx2 : sx ≤ 6) (hy1 : 1 ≤ sy) (hy2 : sy ≤ 6)
    (hfc : fc ≠ ⟨255, 0, 0, 255⟩) :
    floodFill (uniformImg 8 8 ⟨255, 0, 0, 255⟩) sx sy fc 0 =
      uniformImg 8 8 fc := by
  have hgreen : floodFill (uniformImg 8 8 ⟨255, 0, 0, 255⟩) sx sy
      ⟨0, 255, 0, 255⟩ 0 = uniformImg 8 8 ⟨0, 255, 0, 255⟩ := by
    have hrow : ((List.range 6).all fun b =>
        decide (floodFill (uniformImg 8 8 ⟨255, 0, 0, 255⟩) sx (b + 1)
          ⟨0, 255, 0, 255⟩ 0 = uniformImg 8 8 ⟨0, 255, 0, 255⟩)) = true := by
      have hsx : sx = 1 ∨ sx = 2 ∨ sx = 3 ∨ sx = 4 ∨ sx = 5 ∨ sx = 6 := by omega
      rcases hsx with rfl | rfl | rfl | rfl | rfl | rfl
      · exact floodFill_green_row1
      · exact floodFill_green_row2
      · exact floodFill_green_row3
      · exact floodFill_green_row4
      · exact floodFill_green_row5
      · exact floodFill_green_row6
    have h2 := List.all_eq_true.mp hrow (sy - 1) (List.mem_range.mpr (by omega))
    have hsy : sy - 1 + 1 = sy := by omega
    rw [hsy] at h2
    exact of_decide_eq_true h2
  have hg2 : ¬((255 : Nat) = fc.r ∧ (0 : Nat) = fc.g ∧ (0 : Nat) = fc.b ∧
      (255 : Nat) = fc.a) := by
    intro hcon
    apply hfc
    cases fc
    simp only [RGBA.mk.injEq]
    exact ⟨hcon.1.symm, hcon.2.1.symm, hcon.2.2.1.symm, hcon.2.2.2.symm⟩
  have hmfc : matchesVal fc ⟨255, 0, 0, 255⟩ 0 = false := by
    rcases hb : matchesVal fc ⟨255, 0, 0, 255⟩ 0 with _ | _
    · rfl
    · exact absurd ((matchesVal_zero_iff _ _).mp hb) hfc
  have hrel := floodFill_fillColor_rel ⟨255, 0, 0, 255⟩ ⟨0, 255, 0, 255⟩ fc
    (uniformImg 8 8 ⟨255, 0, 0, 255⟩) sx sy 0
    (fun i hi => uniformImg_getD 8 8 _ i (by simpa [uniformImg] using hi))
    (uniformImg_getD 8 8 _ _ (by simp only [uniformImg]; omega))
    (by decide) hg2 (by rw [hmfc]; decide)
  rw [hgreen] at hrel
  rcases hrel with ⟨hlen, hrel⟩
  have hlen64 : (floodFill (uniformImg 8 8 ⟨255, 0, 0, 255⟩) sx sy fc 0).data.length = 64 := by
    rw [← hlen]; simp [uniformImg]
  refine Img.eq_of_parts ?_ ?_ ?_
  · rw [floodFill_width]; rfl
  · rw [floodFill_height]; rfl
  · refine List.ext_getElem ?_ ?_
    · rw [hlen64]; simp [uniformImg]
    · intro i hi1 hi2
      have hi64 : i < 64 := by rw [hlen64] at hi1; exact hi1
      rcases hrel i (by simpa [uniformImg] using hi64) with ⟨hbad, _⟩ | ⟨_, hgood⟩
      · rw [uniformImg_getD 8 8 _ i hi64] at hbad
        exact absurd hbad (by decide)
      · have huni : (uniformImg 8 8 fc).data[i] = fc := by
          simp only [uniformImg, List.getElem_replicate]
        rw [← getD_eq_of_lt hi1, hgood, huni]

theorem writeList_length (ws : List (Nat × α)) (init : List α) :
    (writeList ws init).length = init.length := by
  induction ws generalizing init with
  | nil => rfl
  | cons pv ws ih =>
    show (writeList ws (init.set pv.1 pv.2)).length = init.length
    rw [ih]; simp

theorem writeList_getD_of_not_mem {ws : List (Nat × α)} {p : Nat}
    (hp : p ∉ ws.map Prod.fst) (init : List α) (d : α) :
    (writeList ws init).getD p d = init.getD p d := by
  induction ws generalizing init with
  | nil => rfl
  | cons qv ws ih =>
    simp only [List.map_cons, List.mem_cons, not_or] at hp
    show (writeList ws (init.set qv.1 qv.2)).getD p d = init.getD p d
    rw [ih hp.2, getD_set_ne (Ne.symm hp.1)]

theorem writeList_getD_of_mem {ws : List (Nat × α)} {p : Nat} {v : α}
    (hnd : (ws.map Prod.fst).Nodup) (hmem : (p, v) ∈ ws) {init : List α}
    (hlt : p < init.length) (d : α) :
    (writeList ws init).getD p d = v := by
  induction ws generalizing init with
  | nil => cases hmem
  | cons qv ws ih =>
    simp only [List.map_cons, List.nodup_cons] at hnd
    rcases List.mem_cons.mp hmem with heq | htail
    · subst heq
      show (writeList ws (init.set p v)).getD p d = v
      rw [writeList_getD_of_not_mem hnd.1, getD_set_self hlt]
    · show (writeList ws (init.set qv.1 qv.2)).getD p d = v
      exact ih hnd.2 htail (by simpa using hlt)

/-- Writes that re-write the value already present leave the list unchanged. -/
theorem writeList_eq_self {ws : List (Nat × α)} {init : List α} (d : α)
    (hid : ∀ pv ∈ ws, init.getD pv.1 d = pv.2) :
    writeList ws init = init := by
  induction ws with
  | nil => rfl
  | cons qv ws ih =>
    have hset : init.set qv.1 qv.2 = init := by
      rcases Nat.lt_or_ge qv.1 init.length with hlt | hge
      · refine List.ext_getElem (by simp) ?_
        intro i hi1 hi2
        rcases eq_or_ne i qv.1 with rfl | hne
        · rw [List.getElem_set_self, ← hid qv (List.mem_cons_self ..),
            getD_eq_of_lt hi2]
        · exact List.getElem_set_ne (Ne.symm hne) ..
      · exact List.set_eq_of_length_le hge
    show writeList ws (init.set qv.1 qv.2) = init
    rw [hset]
    exact ih fun pv hm => hid pv (List.mem_cons_of_mem _ hm)

theorem gridPairs_eq_product (h w : Nat) :
    gridPairs h w = (List.range h) ×ˢ (List.range w) := rfl

theorem mem_gridPairs {h w y x : Nat} :
    (y, x) ∈ gridPairs h w ↔ y < h ∧ x < w := by
  rw [gridPairs_eq_product, List.mem_product, List.mem_range, List.mem_range]

theorem nodup_gridPairs (h w : Nat) : (gridPairs h w).Nodup := by
  rw [gridPairs_eq_product]
  exact (List.nodup_range ..).product (List.nodup_range ..)

theorem gridPairs_succ (h w : Nat) :
    gridPairs (h + 1) w = gridPairs h w ++ (List.range w).map (fun x => (h, x)) := by
  rw [gridPairs, List.range_succ, List.flatMap_append, ← gridPairs]
  simp

theorem writeList_append (a b : List (Nat × α)) (init : List α) :
    writeList (a ++ b) init = writeList b (writeList a init) := by
  rw [writeList, List.foldl_append]; rfl

/-- The nested row/column loop common to the transforms, as a `writeList` over
`gridPairs`. -/
theorem nested_foldl_eq_writeList (h w : Nat) (f : Nat → Nat → Nat)
    (g : Nat → Nat → α) (init : List α) :
    (List.range h).foldl (fun acc y =>
      (List.range w).foldl (fun acc2 x => acc2.set (f y x) (g y x)) acc) init =
    writeList ((gridPairs h w).map (fun p => (f p.1 p.2, g p.1 p.2))) init := by
  induction h generalizing init with
  | zero => rfl
  | succ h ih =>
    have hrow : ∀ (X : List α),
        writeList (((List.range w).map fun x => (h, x)).map
          fun p => (f p.1 p.2, g p.1 p.2)) X =
        (List.range w).foldl (fun acc2 x => acc2.set (f h x) (g h x)) X := by
      intro X
      rw [List.map_map, writeList, List.foldl_map]
      rfl
    rw [List.range_succ, List.foldl_append, ih, gridPairs_succ, List.map_append,
      writeList_append, hrow]
    rfl

/-- Division/modulus decomposition used to invert pixel index maps. -/
theorem mul_add_inj {h a1 b1 a2 b2 : Nat} (hb1 : b1 < h) (hb2 : b2 < h)
    (he : a1 * h + b1 = a2 * h + b2) : a1 = a2 ∧ b1 = b2 := by
  have hpos : 0 < h := by omega
  have hd1 : (a1 * h + b1) / h = a1 := by
    rw [Nat.mul_comm a1 h, Nat.mul_add_div hpos, Nat.div_eq_of_lt hb1]
    omega
  have hd2 : (a2 * h + b2) / h = a2 := by
    rw [Nat.mul_comm a2 h, Nat.mul_add_div hpos, Nat.div_eq_of_lt hb2]
    omega
  have hm1 : (a1 * h + b1) % h = b1 := by
    rw [Nat.mul_comm a1 h, Nat.mul_add_mod, Nat.mod_eq_of_lt hb1]
  have hm2 : (a2 * h + b2) % h = b2 := by
    rw [Nat.mul_comm a2 h, Nat.mul_add_mod, Nat.mod_eq_of_lt hb2]
  constructor
  · rw [← hd1, ← hd2, he]
  · rw [← hm1, ← hm2, he]

theorem mul_add_div_self {h a b : Nat} (hb : b < h) : (a * h + b) / h = a := by
  rw [Nat.mul_comm a h, Nat.mul_add_div (by omega), Nat.div_eq_of_lt hb]
  omega

theorem mul_add_mod_self {h a b : Nat} (hb : b < h) : (a * h + b) % h = b := by
  rw [Nat.mul_comm a h, Nat.mul_add_mod, Nat.mod_eq_of_lt hb]

theorem rotateImageData90_data (img : Img) (dir : Direction) :
    (rotateImageData90 img dir).data =
      writeList ((gridPairs img.height img.width).map
        (fun p => (rotPos img.width img.height dir p.1 p.2,
          img.at (p.1 * img.width + p.2))))
        (List.replicate (img.height * img.width) RGBA.transparent) := by
  show (List.range img.height).foldl _ _ = _
  cases dir <;>
    exact nested_foldl_eq_writeList img.height img.width _ _ _

theorem flipImageData_data (img : Img) (axis : Axis) :
    (flipImageData img axis).data =
      writeList ((gridPairs img.height img.width).map
        (fun p => (flipPos img.width img.height axis p.1 p.2,
          img.at (p.1 * img.width + p.2))))
        (List.replicate (img.width * img.height) RGBA.transparent) := by
  show (List.range img.height).foldl _ _ = _
  cases axis <;>
    exact nested_foldl_eq_writeList img.height img.width _ _ _

theorem rotateImageData90_length (img : Img) (dir : Direction) :
    (rotateImageData90 img dir).data.length = img.height * img.width := by
  rw [rotateImageData90_data, writeList_length, List.length_replicate]

theorem flipImageData_length (img : Img) (axis : Axis) :
    (flipImageData img axis).data.length = img.width * img.height := by
  rw [flipImageData_data, writeList_length, List.length_replicate]

theorem rotPos_lt {w h : Nat} (dir : Direction) {y x : Nat} (hy : y < h)
    (hx : x < w) : rotPos w h dir y x < h * w := by
  have h3 : h * w = w * h := Nat.mul_comm ..
  have h4 : h ≤ w * h := Nat.le_mul_of_pos_left h (by omega)
  cases dir <;> simp only [rotPos]
  · have h1 : x * h ≤ (w - 1) * h := Nat.mul_le_mul_right h (by omega)
    have h2 : (w - 1) * h = w * h - h := by rw [Nat.sub_mul, Nat.one_mul]
    omega
  · have h1 : (w - 1 - x) * h ≤ (w - 1) * h := Nat.mul_le_mul_right h (by omega)
    have h2 : (w - 1) * h = w * h - h := by rw [Nat.sub_mul, Nat.one_mul]
    omega

theorem flipPos_lt {w h : Nat} (axis : Axis) {y x : Nat} (hy : y < h)
    (hx : x < w) : flipPos w h axis y x < w * h := by
  have h3 : w * h = h * w := Nat.mul_comm ..
  have h4 : w ≤ h * w := Nat.le_mul_of_pos_left w (by omega)
  cases axis <;> simp only [flipPos]
  · have h1 : y * w ≤ (h - 1) * w := Nat.mul_le_mul_right w (by omega)
    have h2 : (h - 1) * w = h * w - w := by rw [Nat.sub_mul, Nat.one_mul]
    omega
  · have h1 : (h - 1 - y) * w ≤ (h - 1) * w := Nat.mul_le_mul_right w (by omega)
    have h2 : (h - 1) * w = h * w - w := by rw [Nat.sub_mul, Nat.one_mul]
    omega

theorem rotPos_inj {w h : Nat} (dir : Direction) {y1 x1 y2 x2 : Nat}
    (hy1 : y1 < h) (hx1 : x1 < w) (hy2 : y2 < h) (hx2 : x2 < w)
    (he : rotPos w h dir y1 x1 = rotPos w h dir y2 x2) :
    y1 = y2 ∧ x1 = x2 := by
  cases dir <;> simp only [rotPos] at he
  · have := mul_add_inj (by omega) (by omega) he
    omega
  · have := mul_add_inj hy1 hy2 he
    omega

theorem flipPos_inj {w h : Nat} (axis : Axis) {y1 x1 y2 x2 : Nat}
    (hy1 : y1 < h) (hx1 : x1 < w) (hy2 : y2 < h) (hx2 : x2 < w)
    (he : flipPos w h axis y1 x1 = flipPos w h axis y2 x2) :
    y1 = y2 ∧ x1 = x2 := by
  cases axis <;> simp only [flipPos] at he
  · have := mul_add_inj (by omega) (by omega) he
    omega
  · have := mul_add_inj hx1 hx2 he
    omega

/-- Reading one cell of a grid scatter with injective positions. -/
theorem writeList_grid_at (h w : Nat) (pos : Nat → Nat → Nat)
    (val : Nat → Nat → RGBA) (n j y x : Nat)
    (hy : y < h) (hx : x < w) (hpos : pos y x = j)
    (hinj : ∀ y1 x1 y2 x2, y1 < h → x1 < w → y2 < h → x2 < w →
      pos y1 x1 = pos y2 x2 → y1 = y2 ∧ x1 = x2)
    (hn : j < n) :
    (writeList ((gridPairs h w).map (fun p => (pos p.1 p.2, val p.1 p.2)))
      (List.replicate n RGBA.transparent)).getD j RGBA.transparent = val y x := by
  apply writeList_getD_of_mem
  · rw [List.map_map]
    refine List.Nodup.map_on ?_ (nodup_gridPairs ..)
    intro p hp q hq he
    obtain ⟨py, px⟩ := p
    obtain ⟨qy, qx⟩ := q
    have hp' := mem_gridPairs.mp hp
    have hq' := mem_gridPairs.mp hq
    have := hinj _ _ _ _ hp'.1 hp'.2 hq'.1 hq'.2 he
    exact Prod.ext_iff.mpr ⟨this.1, this.2⟩
  · exact List.mem_map.mpr ⟨(y, x), mem_gridPairs.mpr ⟨hy, hx⟩, by rw [hpos]⟩
  · simpa using hn

theorem rotateImageData90_at (img : Img) (dir : Direction) (j : Nat)
    (hj : j < img.height * img.width) :
    (rotateImageData90 img dir).at j =
      img.at (rotSrc img.width img.height dir j) := by
  have hhw : 0 < img.height * img.width := by omega
  have hh : 0 < img.height := by
    rcases Nat.eq_zero_or_pos img.height with h0 | h
    · rw [h0] at hhw; simp at hhw
    · exact h
  have hw : 0 < img.width := by
    rcases Nat.eq_zero_or_pos img.width with h0 | h
    · rw [h0] at hhw; simp at hhw
    · exact h
  have hdiv : j / img.height < img.width :=
    (Nat.div_lt_iff_lt_mul hh).mpr (by rw [Nat.mul_comm]; exact hj)
  have hmod : j % img.height < img.height := Nat.mod_lt _ hh
  rw [Img.at, rotateImageData90_data]
  cases dir <;> simp only [rotSrc]
  · refine writeList_grid_at img.height img.width
      (rotPos img.width img.height .cw)
      (fun a b => img.at (a * img.width + b)) _
      j (img.height - 1 - j % img.height) (j / img.height)
      (by omega) hdiv ?_
      (fun y1 x1 y2 x2 a b c d he => rotPos_inj .cw a b c d he) hj
    simp only [rotPos]
    have h1 : img.height - 1 - (img.height - 1 - j % img.height) =
        j % img.height := by omega
    rw [h1, Nat.mul_comm]
    exact Nat.div_add_mod j img.height
  · refine writeList_grid_at img.height img.width
      (rotPos img.width img.height .ccw)
      (fun a b => img.at (a * img.width + b)) _
      j (j % img.height) (img.width - 1 - j / img.height)
      hmod (lt_of_le_of_lt (Nat.sub_le _ _) (by omega)) ?_
      (fun y1 x1 y2 x2 a b c d he => rotPos_inj .ccw a b c d he) hj
    simp only [rotPos]
    have h1 : img.width - 1 - (img.width - 1 - j / img.height) =
        j / img.height := Nat.sub_sub_self (Nat.le_pred_of_lt hdiv)
    rw [h1, Nat.mul_comm]
    exact Nat.div_add_mod j img.height

theorem flipImageData_at (img : Img) (axis : Axis) (j : Nat)
    (hj : j < img.width * img.height) :
    (flipImageData img axis).at j =
      img.at (flipSrc img.width img.height axis j) := by
  have hwh : 0 < img.width * img.height := by omega
  have hw : 0 < img.width := by
    rcases Nat.eq_zero_or_pos img.width with h0 | h
    · rw [h0] at hwh; simp at hwh
    · exact h
  have hh : 0 < img.height := by
    rcases Nat.eq_zero_or_pos img.height with h0 | h
    · rw [h0] at hwh; simp at hwh
    · exact h
  have hdiv : j / img.width < img.height :=
    (Nat.div_lt_iff_lt_mul hw).mpr (by rw [Nat.mul_comm]; exact hj)
  have hmod : j % img.width < img.width := Nat.mod_lt _ hw
  rw [Img.at, flipImageData_data]
  cases axis <;> simp only [flipSrc]
  · refine writeList_grid_at img.height img.width
      (flipPos img.width img.height .horizontal)
      (fun a b => img.at (a * img.width + b)) _
      j (j / img.width) (img.width - 1 - j % img.width)
      hdiv (by omega) ?_
      (fun y1 x1 y2 x2 a b c d he => flipPos_inj .horizontal a b c d he) hj
    simp only [flipPos]
    have h1 : img.width - 1 - (img.width - 1 - j % img.width) =
        j % img.width := by omega
    rw [h1, Nat.mul_comm]
    exact Nat.div_add_mod j img.width
  · refine writeList_grid_at img.height img.width
      (flipPos img.width img.height .vertical)
      (fun a b => img.at (a * img.width + b)) _
      j (img.height - 1 - j / img.width) (j % img.width)
      (lt_of_le_of_lt (Nat.sub_le _ _) (by omega)) hmod ?_
      (fun y1 x1 y2 x2 a b c d he => flipPos_inj .vertical a b c d he) hj
    simp only [flipPos]
    have h1 : img.height - 1 - (img.height - 1 - j / img.width) =
        j / img.width := Nat.sub_sub_self (Nat.le_pred_of_lt hdiv)
    rw [h1, Nat.mul_comm]
    exact Nat.div_add_mod j img.width

theorem pos_pos_of_lt_mul {j a b : Nat} (h : j < a * b) : 0 < a ∧ 0 < b := by
  have hab : 0 < a * b := by omega
  refine ⟨Nat.pos_of_ne_zero ?_, Nat.pos_of_ne_zero ?_⟩ <;> rintro rfl <;>
    simp at hab

/-- C6: `rotate90(rotate90(b, cw), ccw) == b` and
`flip(flip(b, axis), axis) == b` for every well-formed buffer. -/
theorem rotate_flip_roundtrip (img : Img)
    (hlen : img.data.length = img.width * img.height) :
    rotateImageData90 (rotateImageData90 img .cw) .ccw = img ∧
    ∀ axis, flipImageData (flipImageData img axis) axis = img := by
  constructor
  · refine Img.eq_of_parts rfl rfl ?_
    refine List.ext_getElem ?_ ?_
    · rw [rotateImageData90_length, rotateImageData90_height,
        rotateImageData90_width, hlen]
    · intro j hj1 hj2
      have hj : j < img.width * img.height := by rw [← hlen]; exact hj2
      obtain ⟨hW, hH⟩ := pos_pos_of_lt_mul hj
      have hjdiv : j / img.width < img.height :=
        (Nat.div_lt_iff_lt_mul hW).mpr (by rw [Nat.mul_comm]; exact hj)
      have hjmod : j % img.width < img.width := Nat.mod_lt _ hW
      have hsub : img.height - 1 - j / img.width < img.height :=
        lt_of_le_of_lt (Nat.sub_le _ _) (by omega)
      have houter := rotateImageData90_at (rotateImageData90 img .cw) .ccw j
        (by simp only [rotateImageData90_width, rotateImageData90_height]
            exact hj)
      simp only [rotateImageData90_width, rotateImageData90_height,
        rotSrc] at houter
      have hibound : (j % img.width) * img.height +
          (img.height - 1 - j / img.width) < img.height * img.width := by
        have h1 : (j % img.width) * img.height ≤ (img.width - 1) * img.height :=
          Nat.mul_le_mul_right _ (by omega)
        have h2 : (img.width - 1) * img.height =
            img.width * img.height - img.height := by
          rw [Nat.sub_mul, Nat.one_mul]
        have h3 : img.height ≤ img.width * img.height :=
          Nat.le_mul_of_pos_left _ hW
        have h4 : img.height * img.width = img.width * img.height :=
          Nat.mul_comm ..
        omega
      have hinner := rotateImageData90_at img .cw
        ((j % img.width) * img.height + (img.height - 1 - j / img.width))
        hibound
      simp only [rotSrc] at hinner
      have hss : img.height - 1 - (img.height - 1 - j / img.width) =
          j / img.width := Nat.sub_sub_self (Nat.le_pred_of_lt hjdiv)
      rw [mul_add_mod_self hsub, mul_add_div_self hsub, hss] at hinner
      have hjj : j / img.width * img.width + j % img.width = j := by
        rw [Nat.mul_comm]; exact Nat.div_add_mod j img.width
      rw [hjj] at hinner
      have := houter.trans hinner
      rw [Img.at, Img.at, getD_eq_of_lt hj1, getD_eq_of_lt hj2] at this
      exact this
  · intro axis
    refine Img.eq_of_parts rfl rfl ?_
    refine List.ext_getElem ?_ ?_
    · rw [flipImageData_length, flipImageData_width, flipImageData_height, hlen]
    · intro j hj1 hj2
      have hj : j < img.width * img.height := by rw [← hlen]; exact hj2
      obtain ⟨hW, hH⟩ := pos_pos_of_lt_mul hj
      have hjdiv : j / img.width < img.height :=
        (Nat.div_lt_iff_lt_mul hW).mpr (by rw [Nat.mul_comm]; exact hj)
      have hjmod : j % img.width < img.width := Nat.mod_lt _ hW
      have houter := flipImageData_at (flipImageData img axis) axis j
        (by simp only [flipImageData_width, flipImageData_height]; exact hj)
      simp only [flipImageData_width, flipImageData_height] at houter
      have hjj : j / img.width * img.width + j % img.width = j := by
        rw [Nat.mul_comm]; exact Nat.div_add_mod j img.width
      cases axis
      · simp only [flipSrc] at houter
        have hxb : img.width - 1 - j % img.width < img.width :=
          lt_of_le_of_lt (Nat.sub_le _ _) (by omega)
        have hibound : (j / img.width) * img.width +
            (img.width - 1 - j % img.width) < img.width * img.height := by
          have h1 : (j / img.width) * img.width ≤
              (img.height - 1) * img.width := Nat.mul_le_mul_right _ (by omega)
          have h2 : (img.height - 1) * img.width =
              img.height * img.width - img.width := by
            rw [Nat.sub_mul, Nat.one_mul]
          have h3 : img.width ≤ img.height * img.width :=
            Nat.le_mul_of_pos_left _ hH
          have h4 : img.width * img.height = img.height * img.width :=
            Nat.mul_comm ..
          omega
        have hinner := flipImageData_at img .horizontal
          ((j / img.width) * img.width + (img.width - 1 - j % img.width))
          hibound
        simp only [flipSrc] at hinner
        have hss : img.width - 1 - (img.width - 1 - j % img.width) =
            j % img.width := Nat.sub_sub_self (Nat.le_pred_of_lt hjmod)
        rw [mul_add_mod_self hxb, mul_add_div_self hxb, hss, hjj] at hinner
        have := houter.trans hinner
        rw [Img.at, Img.at, getD_eq_of_lt hj1, getD_eq_of_lt hj2] at this
        exact this
      · simp only [flipSrc] at houter
        have hyb : img.height - 1 - j / img.width < img.height :=
          lt_of_le_of_lt (Nat.sub_le _ _) (by omega)
        have hibound : (img.height - 1 - j / img.width) * img.width +
            j % img.width < img.width * img.height := by
          have h1 : (img.height - 1 - j / img.width) * img.width ≤
              (img.height - 1) * img.width := Nat.mul_le_mul_right _ (by omega)
          have h2 : (img.height - 1) * img.width =
              img.height * img.width - img.width := by
            rw [Nat.sub_mul, Nat.one_mul]
          have h3 : img.width ≤ img.height * img.width :=
            Nat.le_mul_of_pos_left _ hH
          have h4 : img.width * img.height = img.height * img.width :=
            Nat.mul_comm ..
          omega
        have hinner := flipImageData_at img .vertical
          ((img.height - 1 - j / img.width) * img.width + j % img.width)
          hibound
        simp only [flipSrc] at hinner
        have hss : img.height - 1 - (img.height - 1 - j / img.width) =
            j / img.width := Nat.sub_sub_self (Nat.le_pred_of_lt hjdiv)
        rw [mul_add_mod_self hjmod, mul_add_div_self hjmod, hss, hjj] at hinner
        have := houter.trans hinner
        rw [Img.at, Img.at, getD_eq_of_lt hj1, getD_eq_of_lt hj2] at this
        exact this

/-- Witness for C6 at a concrete 2×1 buffer. -/
theorem rotate_flip_roundtrip_witness :
    rotateImageData90 (rotateImageData90 ⟨2, 1, [⟨1, 2, 3, 4⟩, ⟨5, 6, 7, 8⟩]⟩
      .cw) .ccw = ⟨2, 1, [⟨1, 2, 3, 4⟩, ⟨5, 6, 7, 8⟩]⟩ ∧
    ∀ axis, flipImageData (flipImageData ⟨2, 1, [⟨1, 2, 3, 4⟩, ⟨5, 6, 7, 8⟩]⟩
      axis) axis = ⟨2, 1, [⟨1, 2, 3, 4⟩, ⟨5, 6, 7, 8⟩]⟩ :=
  rotate_flip_roundtrip ⟨2, 1, [⟨1, 2, 3, 4⟩, ⟨5, 6, 7, 8⟩]⟩ (by decide)

/-- Disjoint-bit `or` is addition: the key packs `y` above bit 16 and `x`
below it. -/
theorem lor_mul_add {y x : Nat} (hx : x < 65536) :
    (y * 65536) ||| x = y * 65536 + x := by
  apply Nat.eq_of_testBit_eq
  intro i
  rw [Nat.testBit_lor]
  have hy : y * 65536 = y <<< 16 := by rw [Nat.shiftLeft_eq]
  rw [hy, Nat.testBit_shiftLeft, ← hy]
  rcases Nat.lt_or_ge i 16 with hi | hi
  · have hdec : decide (i ≥ 16) = false := decide_eq_false (by omega)
    rw [hdec, Bool.false_and, Bool.false_or]
    rw [Nat.testBit_to_div_mod, Nat.testBit_to_div_mod]
    have h16 : (2 : Nat) ^ 16 = 2 ^ i * 2 ^ (16 - i - 1) * 2 := by
      rw [← Nat.pow_add, ← Nat.pow_succ]
      congr 1
      omega
    have e1 : y * 65536 = 2 ^ i * (2 * (y * 2 ^ (16 - i - 1))) := by
      have h65536 : (65536 : Nat) = 2 ^ 16 := by norm_num
      rw [h65536, h16]
      ring
    rw [e1, Nat.mul_add_div (Nat.two_pow_pos i), Nat.mul_add_mod]
  · have hdec : decide (i ≥ 16) = true := decide_eq_true (by omega)
    rw [hdec, Bool.true_and]
    have hxbit : x.testBit i = false :=
      Nat.testBit_lt_two_pow (by
        calc x < 65536 := hx
        _ = 2 ^ 16 := by norm_num
        _ ≤ 2 ^ i := Nat.pow_le_pow_right (by omega) hi)
    rw [hxbit, Bool.or_false]
    rw [Nat.testBit_to_div_mod, Nat.testBit_to_div_mod]
    have e2 : (2 : Nat) ^ i = 2 ^ 16 * 2 ^ (i - 16) := by
      rw [← Nat.pow_add]
      congr 1
      omega
    have e3 : (y * 65536 + x) / 2 ^ i = y / 2 ^ (i - 16) := by
      rw [e2, ← Nat.div_div_eq_div_mul]
      congr 1
      have : y * 65536 = 2 ^ 16 * y := by rw [Nat.mul_comm]; norm_num
      rw [this, Nat.mul_add_div (Nat.two_pow_pos 16),
        Nat.div_eq_of_lt (by norm_num at hx ⊢; omega), Nat.add_zero]
    rw [e3]

/-- Key equality is coordinate equality below 2^16. -/
theorem jsKey_inj {x1 y1 x2 y2 : Nat} (hx1 : x1 < 65536) (hy1 : y1 < 65536)
    (hx2 : x2 < 65536) (hy2 : y2 < 65536) :
    jsKey x1 y1 = jsKey x2 y2 ↔ x1 = x2 ∧ y1 = y2 := by
  have hb1 : y1 * 65536 ≤ 65535 * 65536 := Nat.mul_le_mul_right _ (by omega)
  have hb2 : y2 * 65536 ≤ 65535 * 65536 := Nat.mul_le_mul_right _ (by omega)
  have m1 : y1 % 4294967296 = y1 := Nat.mod_eq_of_lt (by omega)
  have m2 : y2 % 4294967296 = y2 := Nat.mod_eq_of_lt (by omega)
  have m3 : x1 % 4294967296 = x1 := Nat.mod_eq_of_lt (by omega)
  have m4 : x2 % 4294967296 = x2 := Nat.mod_eq_of_lt (by omega)
  have m5 : y1 * 65536 % 4294967296 = y1 * 65536 := Nat.mod_eq_of_lt (by omega)
  have m6 : y2 * 65536 % 4294967296 = y2 * 65536 := Nat.mod_eq_of_lt (by omega)
  rw [jsKey, jsKey, m1, m2, m3, m4, m5, m6, lor_mul_add hx1, lor_mul_add hx2]
  constructor
  · intro he
    have := mul_add_inj hx1 hx2 he
    exact ⟨this.2, this.1⟩
  · rintro ⟨rfl, rfl⟩
    rfl

theorem getMirroredPixels_exact (horizontal vertical : Bool)
    (width height px py : Nat) (hpx : px < width) (hpy : py < height)
    (hw : width ≤ 65536) (hh : height ≤ 65536) :
    (getMirroredPixels horizontal vertical width height px py).Nodup ∧
    ∀ q : Nat × Nat,
      q ∈ getMirroredPixels horizontal vertical width height px py ↔
      (q = (px, py) ∨
        (vertical = true ∧ q = (width - 1 - px, py)) ∨
        (horizontal = true ∧ q = (px, height - 1 - py)) ∨
        (vertical = true ∧ horizontal = true ∧
          q = (width - 1 - px, height - 1 - py))) := by
  have hpx16 : px < 65536 := by omega
  have hpy16 : py < 65536 := by omega
  have hmx16 : width - 1 - px < 65536 := by omega
  have hmy16 : height - 1 - py < 65536 := by omega
  have kv_eq : jsKey (width - 1 - px) py = jsKey px py ↔ width - 1 - px = px := by
    rw [jsKey_inj hmx16 hpy16 hpx16 hpy16]
    exact ⟨fun h => h.1, fun h => ⟨h, rfl⟩⟩
  have kh_eq : jsKey px (height - 1 - py) = jsKey px py ↔
      height - 1 - py = py := by
    rw [jsKey_inj hpx16 hmy16 hpx16 hpy16]
    exact ⟨fun h => h.2, fun h => ⟨rfl, h⟩⟩
  have kvh_k00 : jsKey (width - 1 - px) (height - 1 - py) = jsKey px py ↔
      (width - 1 - px = px ∧ height - 1 - py = py) := by
    rw [jsKey_inj hmx16 hmy16 hpx16 hpy16]
  have kvh_kv : jsKey (width - 1 - px) (height - 1 - py) =
      jsKey (width - 1 - px) py ↔ height - 1 - py = py := by
    rw [jsKey_inj hmx16 hmy16 hmx16 hpy16]
    exact ⟨fun h => h.2, fun h => ⟨rfl, h⟩⟩
  have kvh_kh : jsKey (width - 1 - px) (height - 1 - py) =
      jsKey px (height - 1 - py) ↔ width - 1 - px = px := by
    rw [jsKey_inj hmx16 hmy16 hpx16 hmy16]
    exact ⟨fun h => h.1, fun h => ⟨h, rfl⟩⟩
  have kh_kv : jsKey px (height - 1 - py) = jsKey (width - 1 - px) py ↔
      (px = width - 1 - px ∧ height - 1 - py = py) := by
    rw [jsKey_inj hpx16 hmy16 hmx16 hpy16]
  have step1 : mirrorAdd ([], []) px py = ([jsKey px py], [(px, py)]) := by
    simp [mirrorAdd]
  cases horizontal <;> cases vertical
  · -- no symmetry: singleton fast path
    simp [getMirroredPixels]
  · -- vertical only
    have hunf : getMirroredPixels false true width height px py =
        (mirrorAdd (mirrorAdd ([], []) px py) (width - 1 - px) py).2 := rfl
    by_cases hmx : width - 1 - px = px
    · have step2 : mirrorAdd ([jsKey px py], [(px, py)]) (width - 1 - px) py =
          ([jsKey px py], [(px, py)]) := by
        simp only [mirrorAdd]
        rw [if_pos (List.mem_singleton.mpr (kv_eq.mpr hmx))]
      have hpts : getMirroredPixels false true width height px py =
          [(px, py)] := by
        rw [hunf, step1, step2]
      rw [hpts]
      refine ⟨by simp, ?_⟩
      rintro ⟨qx, qy⟩
      simp [Prod.mk.injEq]
      try omega
    · have step2 : mirrorAdd ([jsKey px py], [(px, py)]) (width - 1 - px) py =
          ([jsKey px py, jsKey (width - 1 - px) py],
            [(px, py), (width - 1 - px, py)]) := by
        simp only [mirrorAdd]
        rw [if_neg (fun hcon => hmx (kv_eq.mp (List.mem_singleton.mp hcon)))]
        rfl
      have hpts : getMirroredPixels false true width height px py =
          [(px, py), (width - 1 - px, py)] := by
        rw [hunf, step1, step2]
      rw [hpts]
      constructor
      · simp [Prod.mk.injEq]
        try omega
      · rintro ⟨qx, qy⟩
        simp [Prod.mk.injEq]
        try omega
  · -- horizontal only
    have hunf : getMirroredPixels true false width height px py =
        (mirrorAdd (mirrorAdd ([], []) px py) px (height - 1 - py)).2 := rfl
    by_cases hmy : height - 1 - py = py
    · have step2 : mirrorAdd ([jsKey px py], [(px, py)]) px (height - 1 - py) =
          ([jsKey px py], [(px, py)]) := by
        simp only [mirrorAdd]
        rw [if_pos (List.mem_singleton.mpr (kh_eq.mpr hmy))]
      have hpts : getMirroredPixels true false width height px py =
          [(px, py)] := by
        rw [hunf, step1, step2]
      rw [hpts]
      refine ⟨by simp, ?_⟩
      rintro ⟨qx, qy⟩
      simp [Prod.mk.injEq]
      try omega
    · have step2 : mirrorAdd ([jsKey px py], [(px, py)]) px (height - 1 - py) =
          ([jsKey px py, jsKey px (height - 1 - py)],
            [(px, py), (px, height - 1 - py)]) := by
        simp only [mirrorAdd]
        rw [if_neg (fun hcon => hmy (kh_eq.mp (List.mem_singleton.mp hcon)))]
        rfl
      have hpts : getMirroredPixels true false width height px py =
          [(px, py), (px, height - 1 - py)] := by
        rw [hunf, step1, step2]
      rw [hpts]
      constructor
      · simp [Prod.mk.injEq]
        try omega
      · rintro ⟨qx, qy⟩
        simp [Prod.mk.injEq]
        try omega
  · -- both symmetries
    have hunf : getMirroredPixels true true width height px py =
        (mirrorAdd (mirrorAdd (mirrorAdd (mirrorAdd ([], []) px py)
          (width - 1 - px) py) px (height - 1 - py))
          (width - 1 - px) (height - 1 - py)).2 := rfl
    by_cases hmx : width - 1 - px = px <;> by_cases hmy : height - 1 - py = py
    · have step2 : mirrorAdd ([jsKey px py], [(px, py)]) (width - 1 - px) py =
          ([jsKey px py], [(px, py)]) := by
        simp only [mirrorAdd]
        rw [if_pos (List.mem_singleton.mpr (kv_eq.mpr hmx))]
      have step3 : mirrorAdd ([jsKey px py], [(px, py)]) px (height - 1 - py) =
          ([jsKey px py], [(px, py)]) := by
        simp only [mirrorAdd]
        rw [if_pos (List.mem_singleton.mpr (kh_eq.mpr hmy))]
      have step4 : mirrorAdd ([jsKey px py], [(px, py)])
          (width - 1 - px) (height - 1 - py) = ([jsKey px py], [(px, py)]) := by
        simp only [mirrorAdd]
        rw [if_pos (List.mem_singleton.mpr (kvh_k00.mpr ⟨hmx, hmy⟩))]
      have hpts : getMirroredPixels true true width height px py =
          [(px, py)] := by
        rw [hunf, step1, step2, step3, step4]
      rw [hpts]
      refine ⟨by simp, ?_⟩
      rintro ⟨qx, qy⟩
      simp [Prod.mk.injEq]
      try omega
    · have step2 : mirrorAdd ([jsKey px py], [(px, py)]) (width - 1 - px) py =
          ([jsKey px py], [(px, py)]) := by
        simp only [mirrorAdd]
        rw [if_pos (List.mem_singleton.mpr (kv_eq.mpr hmx))]
      have step3 : mirrorAdd ([jsKey px py], [(px, py)]) px (height - 1 - py) =
          ([jsKey px py, jsKey px (height - 1 - py)],
            [(px, py), (px, height - 1 - py)]) := by
        simp only [mirrorAdd]
        rw [if_neg (fun hcon => hmy (kh_eq.mp (List.mem_singleton.mp hcon)))]
        rfl
      have step4 : mirrorAdd ([jsKey px py, jsKey px (height - 1 - py)],
          [(px, py), (px, height - 1 - py)])
          (width - 1 - px) (height - 1 - py) =
          ([jsKey px py, jsKey px (height - 1 - py)],
            [(px, py), (px, height - 1 - py)]) := by
        simp only [mirrorAdd]
        rw [if_pos (List.mem_cons.mpr (Or.inr
          (List.mem_singleton.mpr (kvh_kh.mpr hmx))))]
      have hpts : getMirroredPixels true true width height px py =
          [(px, py), (px, height - 1 - py)] := by
        rw [hunf, step1, step2, step3, step4]
      rw [hpts]
      constructor
      · simp [Prod.mk.injEq]
        try omega
      · rintro ⟨qx, qy⟩
        simp [Prod.mk.injEq]
        try omega
    · have step2 : mirrorAdd ([jsKey px py], [(px, py)]) (width - 1 - px) py =
          ([jsKey px py, jsKey (width - 1 - px) py],
            [(px, py), (width - 1 - px, py)]) := by
        simp only [mirrorAdd]
        rw [if_neg (fun hcon => hmx (kv_eq.mp (List.mem_singleton.mp hcon)))]
        rfl
      have step3 : mirrorAdd ([jsKey px py, jsKey (width - 1 - px) py],
          [(px, py), (width - 1 - px, py)]) px (height - 1 - py) =
          ([jsKey px py, jsKey (width - 1 - px) py],
            [(px, py), (width - 1 - px, py)]) := by
        simp only [mirrorAdd]
        rw [if_pos (List.mem_cons.mpr (Or.inl (kh_eq.mpr hmy)))]
      have step4 : mirrorAdd ([jsKey px py, jsKey (width - 1 - px) py],
          [(px, py), (width - 1 - px, py)])
          (width - 1 - px) (height - 1 - py) =
          ([jsKey px py, jsKey (width - 1 - px) py],
            [(px, py), (width - 1 - px, py)]) := by
        simp only [mirrorAdd]
        exact if_pos (List.mem_cons.mpr (Or.inr
          (List.mem_singleton.mpr (kvh_kv.mpr hmy))))
      have hpts : getMirroredPixels true true width height px py =
          [(px, py), (width - 1 - px, py)] := by
        rw [hunf, step1, step2, step3, step4]
      rw [hpts]
      constructor
      · simp [Prod.mk.injEq]
        try omega
      · rintro ⟨qx, qy⟩
        simp [Prod.mk.injEq]
        try omega
    · have step2 : mirrorAdd ([jsKey px py], [(px, py)]) (width - 1 - px) py =
          ([jsKey px py, jsKey (width - 1 - px) py],
            [(px, py), (width - 1 - px, py)]) := by
        simp only [mirrorAdd]
        rw [if_neg (fun hcon => hmx (kv_eq.mp (List.mem_singleton.mp hcon)))]
        rfl
      have step3 : mirrorAdd ([jsKey px py, jsKey (width - 1 - px) py],
          [(px, py), (width - 1 - px, py)]) px (height - 1 - py) =
          ([jsKey px py, jsKey (width - 1 - px) py, jsKey px (height - 1 - py)],
            [(px, py), (width - 1 - px, py), (px, height - 1 - py)]) := by
        have hno : jsKey px (height - 1 - py) ∉
            [jsKey px py, jsKey (width - 1 - px) py] := by
          intro hcon
          rcases List.mem_cons.mp hcon with h | h
          · exact hmy (kh_eq.mp h)
          · exact hmy (kh_kv.mp (List.mem_singleton.mp h)).2
        simp only [mirrorAdd]
        rw [if_neg hno]
        rfl
      have step4 : mirrorAdd
          ([jsKey px py, jsKey (width - 1 - px) py, jsKey px (height - 1 - py)],
            [(px, py), (width - 1 - px, py), (px, height - 1 - py)])
          (width - 1 - px) (height - 1 - py) =
          ([jsKey px py, jsKey (width - 1 - px) py, jsKey px (height - 1 - py),
              jsKey (width - 1 - px) (height - 1 - py)],
            [(px, py), (width - 1 - px, py), (px, height - 1 - py),
              (width - 1 - px, height - 1 - py)]) := by
        have hno : jsKey (width - 1 - px) (height - 1 - py) ∉
            [jsKey px py, jsKey (width - 1 - px) py,
              jsKey px (height - 1 - py)] := by
          intro hcon
          rcases List.mem_cons.mp hcon with h | h
          · exact hmx (kvh_k00.mp h).1
          · rcases List.mem_cons.mp h with h2 | h2
            · exact hmy (kvh_kv.mp h2)
            · exact hmx (kvh_kh.mp (List.mem_singleton.mp h2))
        simp only [mirrorAdd]
        rw [if_neg hno]
        rfl
      have hpts : getMirroredPixels true true width height px py =
          [(px, py), (width - 1 - px, py), (px, height - 1 - py),
            (width - 1 - px, height - 1 - py)] := by
        rw [hunf, step1, step2, step3, step4]
      rw [hpts]
      constructor
      · simp [Prod.mk.injEq]
        try omega
      · rintro ⟨qx, qy⟩
        simp [Prod.mk.injEq]
        try omega

/-- C3 (amended: for buffers with `width ≤ 65536` and `height ≤ 65536`):
`getMirroredPixels(px, py)` returns exactly the set
`{(px,py)} ∪ {(width-1-px,py) if vertical} ∪ {(px,height-1-py) if horizontal}
∪ {(width-1-px,height-1-py) if both}`, each coordinate pair at most once; in
particular on a 5×5 buffer with both symmetries the center `(2,2)` yields a
single point. -/
theorem getMirroredPixels_spec (horizontal vertical : Bool)
    (width height px py : Nat) (hpx : px < width) (hpy : py < height)
    (hw : width ≤ 65536) (hh : height ≤ 65536) :
    ((getMirroredPixels horizontal vertical width height px py).Nodup ∧
      ∀ q : Nat × Nat,
        q ∈ getMirroredPixels horizontal vertical width height px py ↔
        (q = (px, py) ∨
          (vertical = true ∧ q = (width - 1 - px, py)) ∨
          (horizontal = true ∧ q = (px, height - 1 - py)) ∨
          (vertical = true ∧ horizontal = true ∧
            q = (width - 1 - px, height - 1 - py)))) ∧
    getMirroredPixels true true 5 5 2 2 = [(2, 2)] :=
  ⟨getMirroredPixels_exact horizontal vertical width height px py hpx hpy hw hh,
    by decide⟩

/-- Witness for C3 on a 4×4 buffer with both symmetries at `(0, 1)`. -/
theorem getMirroredPixels_spec_witness :
    ((getMirroredPixels true true 4 4 0 1).Nodup ∧
      ∀ q : Nat × Nat,
        q ∈ getMirroredPixels true true 4 4 0 1 ↔
        (q = (0, 1) ∨
          (true = true ∧ q = (4 - 1 - 0, 1)) ∨
          (true = true ∧ q = (0, 4 - 1 - 1)) ∨
          (true = true ∧ true = true ∧ q = (4 - 1 - 0, 4 - 1 - 1)))) ∧
    getMirroredPixels true true 5 5 2 2 = [(2, 2)] :=
  getMirroredPixels_spec true true 4 4 0 1 (by decide) (by decide) (by decide)
    (by decide)

/-- C3 counterexample: on a 1×65537 buffer with horizontal symmetry the JS
32-bit dedup key of the mirror point `(0, 65536)` collides with the key of
`(0, 0)` (`65536 << 16` overflows to `0`), so the mirror point is dropped
and the function does not return the claimed two-point set. -/
theorem getMirroredPixels_counterexample :
    getMirroredPixels true false 1 65537 0 0 = [(0, 0)] ∧
    (0, 65537 - 1 - 0) ∉ getMirroredPixels true false 1 65537 0 0 := by
  constructor
  · decide
  · decide

/-- Witness for C5 at start `(3, 4)` with opaque blue. -/
theorem floodFill_uniform_red_fills_witness :
    floodFill (uniformImg 8 8 ⟨255, 0, 0, 255⟩) 3 4 ⟨0, 0, 255, 255⟩ 0 =
      uniformImg 8 8 ⟨0, 0, 255, 255⟩ :=
  floodFill_uniform_red_fills 3 4 ⟨0, 0, 255, 255⟩ (by decide) (by decide)
    (by decide) (by decide) (by decide)

/-- Any nested row/column fold is the flat fold over `gridPairs`. -/
theorem nested_foldl_eq_foldl_gridPairs (h w : Nat)
    (step : List α → Nat → Nat → List α) (init : List α) :
    (List.range h).foldl (fun acc y =>
      (List.range w).foldl (fun acc2 x => step acc2 y x) acc) init =
    (gridPairs h w).foldl (fun acc p => step acc p.1 p.2) init := by
  induction h generalizing init with
  | zero => rfl
  | succ h ih =>
    rw [List.range_succ, List.foldl_append, ih, gridPairs_succ,
      List.foldl_append, List.foldl_map]
    rfl

/-- When every write in the list carries the same value, membership of the
position alone determines the result. -/
theorem writeList_getD_of_mem_const {ws : List (Nat × α)} {p : Nat} {v : α}
    (hval : ∀ pv ∈ ws, pv.2 = v) (hmem : p ∈ ws.map Prod.fst)
    {init : List α} (hlt : p < init.length) (d : α) :
    (writeList ws init).getD p d = v := by
  induction ws generalizing init with
  | nil => cases hmem
  | cons qv ws ih =>
    show (writeList ws (init.set qv.1 qv.2)).getD p d = v
    by_cases hp : p ∈ ws.map Prod.fst
    · exact ih (fun pv hm => hval pv (List.mem_cons_of_mem _ hm)) hp
        (by simpa using hlt)
    · have heq : p = qv.1 := by
        rw [List.map_cons, List.mem_cons] at hmem
        tauto
      subst heq
      rw [writeList_getD_of_not_mem hp, getD_set_self hlt]
      exact hval qv (List.mem_cons_self ..)

/-- A fold whose step writes `f p` when it is `some` is the `writeList` of
the `filterMap`. -/
theorem foldl_filterMap_writeList (l : List β) (f : β → Option (Nat × α))
    (init : List α) :
    writeList (l.filterMap f) init =
      l.foldl (fun acc p =>
        match f p with
        | none => acc
        | some pv => acc.set pv.1 pv.2) init := by
  induction l generalizing init with
  | nil => rfl
  | cons b l ih =>
    rw [List.filterMap_cons]
    cases hf : f b with
    | none => rw [List.foldl_cons, hf, ih]
    | some pv =>
      rw [List.foldl_cons, hf, writeList, List.foldl_cons, ← writeList, ih]

/-- Positions of a `filterMap` scatter are distinct when the underlying list
is `Nodup` and positions determine the element. -/
theorem nodup_filterMap_fst {l : List β} (f : β → Option (Nat × α))
    (hnd : l.Nodup)
    (hinj : ∀ p ∈ l, ∀ q ∈ l, ∀ a b, f p = some a → f q = some b →
      a.1 = b.1 → p = q) :
    ((l.filterMap f).map Prod.fst).Nodup := by
  induction l with
  | nil => exact List.nodup_nil
  | cons b l ih =>
    rw [List.filterMap_cons]
    rcases List.nodup_cons.mp hnd with ⟨hb, hl⟩
    have ihl := ih hl (fun p hp q hq a c hfa hfc he =>
      hinj p (List.mem_cons_of_mem _ hp) q (List.mem_cons_of_mem _ hq)
        a c hfa hfc he)
    cases hf : f b with
    | none => exact ihl
    | some pv =>
      rw [List.map_cons, List.nodup_cons]
      refine ⟨?_, ihl⟩
      intro hcon
      rcases List.mem_map.mp hcon with ⟨qv, hqv, hfst⟩
      rcases List.mem_filterMap.mp hqv with ⟨q, hq, hfq⟩
      exact hb (hinj b (List.mem_cons_self ..) q (List.mem_cons_of_mem _ hq)
        pv qv hf hfq hfst.symm ▸ hq)

theorem foldl_fun_congr {f g : γ → β → γ} (h : ∀ a b, f a b = g a b)
    (l : List β) (init : γ) : l.foldl f init = l.foldl g init := by
  have hfg : f = g := funext fun a => funext (h a)
  rw [hfg]

/-- For a rectangle with non-negative origin, `clearRegion` is a plain
scatter of transparent pixels. -/
theorem clearRegion_data (img : Img) (rect : SelectionRect)
    (hx : 0 ≤ rect.x) (hy : 0 ≤ rect.y) :
    (clearRegion img rect).data =
      writeList ((gridPairs rect.h rect.w).map (fun p =>
        (((rect.y + p.1) * img.width + (rect.x + p.2)).toNat,
          RGBA.transparent))) img.data := by
  show (List.range rect.h).foldl _ _ = _
  rw [nested_foldl_eq_foldl_gridPairs]
  have hstep : ∀ (acc : List RGBA) (p : Nat × Nat),
      listSetI acc ((rect.y + p.1) * img.width + (rect.x + p.2))
        RGBA.transparent =
      acc.set (((rect.y + p.1) * img.width + (rect.x + p.2)).toNat)
        RGBA.transparent := by
    intro acc p
    rw [listSetI, if_pos]
    refine add_nonneg (mul_nonneg (by omega) (Int.natCast_nonneg _)) (by omega)
  rw [foldl_fun_congr hstep]
  rw [writeList, List.foldl_map]

theorem clearRegion_length (img : Img) (rect : SelectionRect)
    (hx : 0 ≤ rect.x) (hy : 0 ≤ rect.y) :
    (clearRegion img rect).data.length = img.data.length := by
  rw [clearRegion_data img rect hx hy, writeList_length]

/-- C8 (amended: for rectangles lying fully inside the buffer):
`clearRegion` makes every pixel inside the rectangle transparent black and
leaves every pixel outside it unchanged. -/
theorem clearRegion_spec (img : Img) (rect : SelectionRect)
    (hx : 0 ≤ rect.x) (hy : 0 ≤ rect.y)
    (hxw : rect.x + rect.w ≤ img.width) (hyh : rect.y + rect.h ≤ img.height)
    (hlen : img.data.length = img.width * img.height) :
    (clearRegion img rect).width = img.width ∧
    (clearRegion img rect).height = img.height ∧
    ∀ px py, px < img.width → py < img.height →
      (clearRegion img rect).at (py * img.width + px) =
        if rect.x ≤ (px : Int) ∧ (px : Int) < rect.x + rect.w ∧
            rect.y ≤ (py : Int) ∧ (py : Int) < rect.y + rect.h
        then RGBA.transparent
        else img.at (py * img.width + px) := by
  obtain ⟨rx, hrx⟩ : ∃ n : Nat, rect.x = n :=
    ⟨rect.x.toNat, (Int.toNat_of_nonneg hx).symm⟩
  obtain ⟨ry, hry⟩ : ∃ n : Nat, rect.y = n :=
    ⟨rect.y.toNat, (Int.toNat_of_nonneg hy).symm⟩
  have hxwN : rx + rect.w ≤ img.width := by
    rw [hrx] at hxw; exact_mod_cast hxw
  have hyhN : ry + rect.h ≤ img.height := by
    rw [hry] at hyh; exact_mod_cast hyh
  refine ⟨rfl, rfl, ?_⟩
  intro px py hpx hpy
  have hposmap : ∀ a b : Nat,
      (((rect.y + a) * img.width + (rect.x + b)).toNat) =
        (ry + a) * img.width + (rx + b) := by
    intro a b
    rw [hrx, hry]
    push_cast
    exact_mod_cast rfl
  have hdataeq := clearRegion_data img rect hx hy
  have hlt : py * img.width + px < img.data.length := by
    rw [hlen]
    have h1 : py * img.width ≤ (img.height - 1) * img.width :=
      Nat.mul_le_mul_right _ (by omega)
    have h2 : (img.height - 1) * img.width =
        img.height * img.width - img.width := by
      rw [Nat.sub_mul, Nat.one_mul]
    have h3 : img.width * img.height = img.height * img.width := Nat.mul_comm ..
    have h4 : img.width ≤ img.height * img.width :=
      Nat.le_mul_of_pos_left _ (by omega)
    omega
  rw [Img.at, hdataeq]
  split
  next hin =>
    have hinN : rx ≤ px ∧ px < rx + rect.w ∧ ry ≤ py ∧ py < ry + rect.h := by
      rw [hrx, hry] at hin
      omega
    apply writeList_getD_of_mem_const
    · intro pv hpv
      rcases List.mem_map.mp hpv with ⟨p, _, hpeq⟩
      rw [← hpeq]
    · rw [List.map_map]
      refine List.mem_map.mpr ⟨(py - ry, px - rx),
        mem_gridPairs.mpr ⟨by omega, by omega⟩, ?_⟩
      show (((rect.y + ((py - ry : Nat) : Int)) * img.width +
        (rect.x + ((px - rx : Nat) : Int))).toNat) = _
      rw [hposmap (py - ry) (px - rx)]
      have e1 : ry + (py - ry) = py := by omega
      have e2 : rx + (px - rx) = px := by omega
      rw [e1, e2]
    · exact hlt
  next hout =>
    have houtN : ¬(rx ≤ px ∧ px < rx + rect.w ∧ ry ≤ py ∧ py < ry + rect.h) := by
      rw [hrx, hry] at hout
      omega
    apply writeList_getD_of_not_mem
    rw [List.map_map]
    intro hcon
    rcases List.mem_map.mp hcon with ⟨p, hpmem, hpeq⟩
    obtain ⟨prow, pcol⟩ := p
    have hpb := mem_gridPairs.mp hpmem
    have : ((rect.y + prow) * img.width + (rect.x + pcol)).toNat =
        py * img.width + px := hpeq
    rw [hposmap prow pcol] at this
    have hcolW : rx + pcol < img.width := by omega
    have := mul_add_inj hcolW hpx this
    exact houtN (by omega)

/-- Witness for C8: clear the top-left pixel of a 2×2 buffer. -/
theorem clearRegion_spec_witness :
    (clearRegion ⟨2, 2, [⟨1, 1, 1, 1⟩, ⟨2, 2, 2, 2⟩, ⟨3, 3, 3, 3⟩, ⟨4, 4, 4, 4⟩]⟩
      ⟨0, 0, 1, 1⟩).width = 2 ∧
    (clearRegion ⟨2, 2, [⟨1, 1, 1, 1⟩, ⟨2, 2, 2, 2⟩, ⟨3, 3, 3, 3⟩, ⟨4, 4, 4, 4⟩]⟩
      ⟨0, 0, 1, 1⟩).height = 2 ∧
    ∀ px py, px < 2 → py < 2 →
      (clearRegion ⟨2, 2, [⟨1, 1, 1, 1⟩, ⟨2, 2, 2, 2⟩, ⟨3, 3, 3, 3⟩, ⟨4, 4, 4, 4⟩]⟩
        ⟨0, 0, 1, 1⟩).at (py * 2 + px) =
        if (0 : Int) ≤ (px : Int) ∧ (px : Int) < 0 + (1 : Nat) ∧
            (0 : Int) ≤ (py : Int) ∧ (py : Int) < 0 + (1 : Nat)
        then RGBA.transparent
        else Img.at ⟨2, 2, [⟨1, 1, 1, 1⟩, ⟨2, 2, 2, 2⟩, ⟨3, 3, 3, 3⟩, ⟨4, 4, 4, 4⟩]⟩
          (py * 2 + px) :=
  clearRegion_spec ⟨2, 2, [⟨1, 1, 1, 1⟩, ⟨2, 2, 2, 2⟩, ⟨3, 3, 3, 3⟩, ⟨4, 4, 4, 4⟩]⟩
    ⟨0, 0, 1, 1⟩ (by decide) (by decide) (by decide) (by decide) (by decide)

/-- C8 counterexample: `clearRegion` does not clamp.  On a 2×2 buffer with
the rectangle `{x:1, y:0, w:2, h:1}`, the out-of-range column wraps to the
flat index 2, clearing pixel `(0,1)` which lies outside the clamped
rectangle, so the claimed clamping behavior fails. -/
theorem clearRegion_counterexample :
    (clearRegion ⟨2, 2, [⟨1, 1, 1, 1⟩, ⟨2, 2, 2, 2⟩, ⟨3, 3, 3, 3⟩, ⟨4, 4, 4, 4⟩]⟩
      ⟨1, 0, 2, 1⟩).at (1 * 2 + 0) = RGBA.transparent ∧
    Img.at ⟨2, 2, [⟨1, 1, 1, 1⟩, ⟨2, 2, 2, 2⟩, ⟨3, 3, 3, 3⟩, ⟨4, 4, 4, 4⟩]⟩
      (1 * 2 + 0) = ⟨3, 3, 3, 3⟩ ∧
    ¬((1 : Int) ≤ (0 : Nat) ∧ ((0 : Nat) : Int) < 1 + (2 : Nat) ∧
      (0 : Int) ≤ (1 : Nat) ∧ ((1 : Nat) : Int) < 0 + (1 : Nat)) := by
  refine ⟨by decide, by decide, by decide⟩

theorem pix_index_lt {w h px py : Nat} (hpx : px < w) (hpy : py < h) :
    py * w + px < w * h := by
  have h1 : py * w + px < (py + 1) * w := by
    rw [Nat.succ_mul]
    omega
  have h2 : (py + 1) * w ≤ h * w := Nat.mul_le_mul_right _ (by omega)
  rw [Nat.mul_comm w h]
  omega

theorem pasteRegion_data (target source : Img) (x y : Int) :
    (pasteRegion target source x y).data =
      writeList ((gridPairs source.height source.width).filterMap
        (pasteWrite target source x y)) target.data := by
  rw [foldl_filterMap_writeList]
  show (List.range source.height).foldl _ _ = _
  rw [nested_foldl_eq_foldl_gridPairs]
  refine foldl_fun_congr ?_ _ _
  intro acc p
  simp only [pasteWrite]
  by_cases h1 : x + (p.2 : Int) < 0 ∨ x + (p.2 : Int) ≥ (target.width : Int) ∨
      y + (p.1 : Int) < 0 ∨ y + (p.1 : Int) ≥ (target.height : Int)
  · rw [if_pos h1, if_pos h1]
  · rw [if_neg h1, if_neg h1]
    by_cases h2 : (source.at (p.1 * source.width + p.2)).a = 0
    · rw [if_pos h2, if_pos h2]
    · rw [if_neg h2, if_neg h2]

theorem pasteWrite_some_elim {target source : Img} {x y : Int} {p1 p2 : Nat}
    {pv : Nat × RGBA}
    (hf : pasteWrite target source x y (p1, p2) = some pv) :
    ∃ a b : Nat, x + (p2 : Int) = a ∧ y + (p1 : Int) = b ∧
      a < target.width ∧ b < target.height ∧
      pv = (b * target.width + a, source.at (p1 * source.width + p2)) ∧
      (source.at (p1 * source.width + p2)).a ≠ 0 := by
  simp only [pasteWrite] at hf
  by_cases h1 : x + (p2 : Int) < 0 ∨ x + (p2 : Int) ≥ (target.width : Int) ∨
      y + (p1 : Int) < 0 ∨ y + (p1 : Int) ≥ (target.height : Int)
  · rw [if_pos h1] at hf
    simp at hf
  · rw [if_neg h1] at hf
    by_cases h2 : (source.at (p1 * source.width + p2)).a = 0
    · rw [if_pos h2] at hf
      simp at hf
    · rw [if_neg h2] at hf
      push_neg at h1
      obtain ⟨hx0, hxw, hy0, hyh⟩ := h1
      obtain ⟨a, ha⟩ := Int.eq_ofNat_of_zero_le hx0
      obtain ⟨b, hb⟩ := Int.eq_ofNat_of_zero_le hy0
      refine ⟨a, b, ha, hb, ?_, ?_, ?_, h2⟩
      · rw [ha] at hxw
        exact_mod_cast hxw
      · rw [hb] at hyh
        exact_mod_cast hyh
      · have hpv := (Option.some.inj hf).symm
        rw [hpv, hb, ha]
        have e3 : ((b : Int) * (target.width : Int) + (a : Int)).toNat =
            b * target.width + a := by
          push_cast
          exact_mod_cast rfl
        rw [e3]

theorem pasteWrites_nodup (target source : Img) (x y : Int) :
    (((gridPairs source.height source.width).filterMap
      (pasteWrite target source x y)).map Prod.fst).Nodup := by
  refine nodup_filterMap_fst _ (nodup_gridPairs ..) ?_
  rintro ⟨p1, p2⟩ - ⟨q1, q2⟩ - a b hfa hfb he
  obtain ⟨a1, b1, ha1, hb1, haw1, hbh1, hpv1, -⟩ := pasteWrite_some_elim hfa
  obtain ⟨a2, b2, ha2, hb2, haw2, hbh2, hpv2, -⟩ := pasteWrite_some_elim hfb
  have he' : b1 * target.width + a1 = b2 * target.width + a2 := by
    rw [hpv1, hpv2] at he
    exact he
  obtain ⟨hbe, hae⟩ := mul_add_inj haw1 haw2 he'
  have hp : p1 = q1 := by omega
  have hq : p2 = q2 := by omega
  rw [hp, hq]

theorem pasteWrite_covers {target source : Img} {x y : Int} {px py : Nat}
    (hpx : px < target.width) (hpy : py < target.height)
    (hc : pasteCovers source x y px py) :
    pasteWrite target source x y
      (((py : Int) - y).toNat, ((px : Int) - x).toNat) =
      some (py * target.width + px,
        source.at (((py : Int) - y).toNat * source.width +
          ((px : Int) - x).toNat)) := by
  obtain ⟨h1, h2, h3, h4, h5⟩ := hc
  simp only [pasteWrite]
  have hcond : ¬(x + ((((px : Int) - x).toNat : Nat) : Int) < 0 ∨
      x + ((((px : Int) - x).toNat : Nat) : Int) ≥ (target.width : Int) ∨
      y + ((((py : Int) - y).toNat : Nat) : Int) < 0 ∨
      y + ((((py : Int) - y).toNat : Nat) : Int) ≥ (target.height : Int)) := by
    push_neg
    refine ⟨by omega, by omega, by omega, by omega⟩
  rw [if_neg hcond, if_neg h5]
  have e1 : y + ((((py : Int) - y).toNat : Nat) : Int) = (py : Int) := by omega
  have e2 : x + ((((px : Int) - x).toNat : Nat) : Int) = (px : Int) := by omega
  rw [e1, e2]
  have e3 : ((py : Int) * (target.width : Int) + (px : Int)).toNat =
      py * target.width + px := by
    push_cast
    exact_mod_cast rfl
  rw [e3]

/-- Per-pixel characterization of `pasteRegion`: covered pixels receive the
source pixel verbatim, all others keep the target pixel. -/
theorem pasteRegion_at (target source : Img) (x y : Int)
    (hlen : target.data.length = target.width * target.height)
    (px py : Nat) (hpx : px < target.width) (hpy : py < target.height) :
    (pasteRegion target source x y).at (py * target.width + px) =
      if pasteCovers source x y px py
      then source.at (((py : Int) - y).toNat * source.width +
        ((px : Int) - x).toNat)
      else target.at (py * target.width + px) := by
  have hlt : py * target.width + px < target.data.length := by
    rw [hlen]
    exact pix_index_lt hpx hpy
  rw [Img.at, pasteRegion_data]
  split
  next hc =>
    refine writeList_getD_of_mem (pasteWrites_nodup target source x y)
      (List.mem_filterMap.mpr ⟨(((py : Int) - y).toNat, ((px : Int) - x).toNat),
        mem_gridPairs.mpr ⟨?_, ?_⟩, pasteWrite_covers hpx hpy hc⟩)
      hlt RGBA.transparent
    · obtain ⟨h1, h2, h3, h4, h5⟩ := hc
      omega
    · obtain ⟨h1, h2, h3, h4, h5⟩ := hc
      omega
  next hc =>
    refine writeList_getD_of_not_mem ?_ target.data RGBA.transparent
    intro hmemf
    rcases List.mem_map.mp hmemf with ⟨pv, hpv, hfst⟩
    rcases List.mem_filterMap.mp hpv with ⟨⟨p1, p2⟩, hpmem, hf⟩
    have hpb := mem_gridPairs.mp hpmem
    obtain ⟨a, b, ha, hb, haw, hbh, hpveq, halpha⟩ := pasteWrite_some_elim hf
    have he : b * target.width + a = py * target.width + px := by
      rw [hpveq] at hfst
      exact hfst
    obtain ⟨hbe, hae⟩ := mul_add_inj haw hpx he
    apply hc
    have e1 : ((py : Int) - y).toNat = p1 := by omega
    have e2 : ((px : Int) - x).toNat = p2 := by omega
    refine ⟨by omega, ?_, by omega, ?_, ?_⟩
    · have hw2 := hpb.2
      omega
    · have hh1 := hpb.1
      omega
    · rw [e1, e2]
      exact halpha

/-- The copied rectangle, read back cell by cell. -/
theorem copyRegion_at (img : Img) (rect : SelectionRect) {row col : Nat}
    (hrow : row < rect.h) (hcol : col < rect.w) :
    (copyRegion img rect).at (row * rect.w + col) =
      img.atI ((rect.y + (row : Int)) * img.width + (rect.x + (col : Int))) := by
  have hdata : (copyRegion img rect).data =
      writeList ((gridPairs rect.h rect.w).map (fun p =>
        (p.1 * rect.w + p.2,
          img.atI ((rect.y + (p.1 : Int)) * img.width + (rect.x + (p.2 : Int))))))
        (List.replicate (rect.w * rect.h) RGBA.transparent) := by
    show (List.range rect.h).foldl _ _ = _
    exact nested_foldl_eq_writeList rect.h rect.w _ _ _
  rw [Img.at, hdata]
  refine writeList_grid_at rect.h rect.w (fun a b => a * rect.w + b)
    (fun a b => img.atI ((rect.y + (a : Int)) * img.width + (rect.x + (b : Int))))
    (rect.w * rect.h) (row * rect.w + col) row col hrow hcol rfl
    ?_ (pix_index_lt hcol hrow)
  intro y1 x1 y2 x2 hy1 hx1 hy2 hx2 he
  exact mul_add_inj hx1 hx2 he

/-- Pasting a copied rectangle back at its own origin rewrites every touched
pixel with its current value. -/
theorem paste_copy_roundtrip (img : Img) (rect : SelectionRect)
    (hx : 0 ≤ rect.x) (hy : 0 ≤ rect.y) :
    pasteRegion img (copyRegion img rect) rect.x rect.y = img := by
  refine Img.eq_of_parts rfl rfl ?_
  show (pasteRegion img (copyRegion img rect) rect.x rect.y).data = img.data
  rw [pasteRegion_data]
  refine writeList_eq_self RGBA.transparent ?_
  intro pv hmem
  rcases List.mem_filterMap.mp hmem with ⟨⟨p1, p2⟩, hpmem, hf⟩
  have hpb := mem_gridPairs.mp hpmem
  have hp1 : p1 < rect.h := hpb.1
  have hp2 : p2 < rect.w := hpb.2
  obtain ⟨a, b, ha, hb, haw, hbh, hpveq, halpha⟩ := pasteWrite_some_elim hf
  rw [hpveq]
  show img.data.getD (b * img.width + a) RGBA.transparent =
    (copyRegion img rect).at (p1 * rect.w + p2)
  rw [copyRegion_at img rect hp1 hp2, Img.atI, if_pos]
  · congr 1
    rw [hb, ha]
    push_cast
    exact_mod_cast rfl
  · rw [hb, ha]
    exact add_nonneg (mul_nonneg (Int.natCast_nonneg _) (Int.natCast_nonneg _))
      (Int.natCast_nonneg _)

/-- C7: pasting a region copied from the buffer back at the rectangle's own
non-negative origin reproduces the buffer exactly; and for every paste at any
offset, the result keeps the target's dimensions and each in-bounds pixel is
the matching source pixel exactly when that pixel exists and has nonzero
alpha (so transparent source pixels leave the destination unchanged, and
source pixels falling outside the target are silently dropped). -/
theorem pasteRegion_spec (target source : Img) (x y : Int)
    (rect : SelectionRect)
    (hlen : target.data.length = target.width * target.height)
    (hx : 0 ≤ rect.x) (hy : 0 ≤ rect.y) :
    pasteRegion target (copyRegion target rect) rect.x rect.y = target ∧
    (pasteRegion target source x y).width = target.width ∧
    (pasteRegion target source x y).height = target.height ∧
    ∀ px py, px < target.width → py < target.height →
      (pasteRegion target source x y).at (py * target.width + px) =
        if pasteCovers source x y px py
        then source.at (((py : Int) - y).toNat * source.width +
          ((px : Int) - x).toNat)
        else target.at (py * target.width + px) :=
  ⟨paste_copy_roundtrip target rect hx hy, rfl, rfl,
    fun px py hpx hpy => pasteRegion_at target source x y hlen px py hpx hpy⟩

/-- Witness for C7 on a 2×2 target, a 1×1 source pasted at `(-1, 0)`, and
the top row as the copied rectangle. -/
theorem pasteRegion_spec_witness :
    pasteRegion ⟨2, 2, [⟨1, 1, 1, 1⟩, ⟨2, 2, 2, 2⟩, ⟨3, 3, 3, 3⟩, ⟨4, 4, 4, 4⟩]⟩
      (copyRegion ⟨2, 2, [⟨1, 1, 1, 1⟩, ⟨2, 2, 2, 2⟩, ⟨3, 3, 3, 3⟩, ⟨4, 4, 4, 4⟩]⟩
        ⟨0, 0, 2, 1⟩) (0 : Int) (0 : Int) =
      ⟨2, 2, [⟨1, 1, 1, 1⟩, ⟨2, 2, 2, 2⟩, ⟨3, 3, 3, 3⟩, ⟨4, 4, 4, 4⟩]⟩ ∧
    (pasteRegion ⟨2, 2, [⟨1, 1, 1, 1⟩, ⟨2, 2, 2, 2⟩, ⟨3, 3, 3, 3⟩, ⟨4, 4, 4, 4⟩]⟩
      ⟨1, 1, [⟨9, 9, 9, 255⟩]⟩ (-1) 0).width = 2 ∧
    (pasteRegion ⟨2, 2, [⟨1, 1, 1, 1⟩, ⟨2, 2, 2, 2⟩, ⟨3, 3, 3, 3⟩, ⟨4, 4, 4, 4⟩]⟩
      ⟨1, 1, [⟨9, 9, 9, 255⟩]⟩ (-1) 0).height = 2 ∧
    ∀ px py, px < 2 → py < 2 →
      (pasteRegion ⟨2, 2, [⟨1, 1, 1, 1⟩, ⟨2, 2, 2, 2⟩, ⟨3, 3, 3, 3⟩, ⟨4, 4, 4, 4⟩]⟩
        ⟨1, 1, [⟨9, 9, 9, 255⟩]⟩ (-1) 0).at (py * 2 + px) =
        if pasteCovers ⟨1, 1, [⟨9, 9, 9, 255⟩]⟩ (-1) 0 px py
        then Img.at ⟨1, 1, [⟨9, 9, 9, 255⟩]⟩
          (((py : Int) - 0).toNat * 1 + ((px : Int) - (-1)).toNat)
        else Img.at ⟨2, 2, [⟨1, 1, 1, 1⟩, ⟨2, 2, 2, 2⟩, ⟨3, 3, 3, 3⟩, ⟨4, 4, 4, 4⟩]⟩
          (py * 2 + px) :=
  pasteRegion_spec ⟨2, 2, [⟨1, 1, 1, 1⟩, ⟨2, 2, 2, 2⟩, ⟨3, 3, 3, 3⟩, ⟨4, 4, 4, 4⟩]⟩
    ⟨1, 1, [⟨9, 9, 9, 255⟩]⟩ (-1) 0 ⟨0, 0, 2, 1⟩ (by decide) (by decide) (by decide)

theorem qByte_natCast {n : Nat} (h : n ≤ 255) : qByte (n : ℚ) = n := by
  rw [qByte]
  simp only [Rat.num_natCast, Rat.den_natCast]
  rw [Int.fdiv_eq_ediv _ (by norm_num)]
  omega

theorem srcOver_one_zero (s : RGBA) : srcOver 1 s QPix.zero = RGBAq s := by
  simp [srcOver, QPix.zero, RGBAq]

theorem premulByte_255 (c : Nat) : premulByte c 255 = c := by
  rw [premulByte]
  omega

theorem putPremul_full {p : RGBA} (h : p.a = 255) : putPremul p = p := by
  obtain ⟨r, g, b, a⟩ := p
  simp only [putPremul] at *
  rw [h, premulByte_255, premulByte_255, premulByte_255]

theorem getPix_byte_zero {p : RGBA} (h : p.a = 0) :
    getPix (RGBAq p) = RGBA.transparent := by
  simp only [getPix, RGBAq]
  rw [h]
  rw [if_pos (qByte_natCast (by omega))]

theorem getPix_byte_full {p : RGBA} (ha : p.a = 255)
    (hr : p.r ≤ 255) (hg : p.g ≤ 255) (hb : p.b ≤ 255) :
    getPix (RGBAq p) = p := by
  obtain ⟨r, g, b, a⟩ := p
  simp only at ha hr hg hb
  subst ha
  simp only [getPix, RGBAq]
  rw [if_neg (by rw [qByte_natCast (by omega)]; omega)]
  have hdiv : ∀ c : Nat, (c : ℚ) * 255 / ((255 : Nat) : ℚ) = (c : ℚ) := by
    intro c
    push_cast
    exact mul_div_cancel_right₀ _ (by norm_num)
  rw [hdiv, hdiv, hdiv, qByte_natCast hr, qByte_natCast hg, qByte_natCast hb,
    qByte_natCast (by omega)]

theorem getPix_alpha (q : RGBA) (ha : q.a ≤ 255) :
    (getPix (RGBAq q)).a = q.a := by
  by_cases h0 : q.a = 0
  · rw [getPix_byte_zero h0, h0]
    rfl
  · simp only [getPix, RGBAq]
    rw [if_neg (by rw [qByte_natCast ha]; omega)]
    exact qByte_natCast ha

/-- A single visible layer composites pixelwise as one premultiplied
round-trip through the canvas. -/
theorem flattenLayers_single_at (layer : Layer)
    (hvis : layer.visible = true) (hop : layer.opacity = 1)
    (i : Nat) (hi : i < layer.imageData.width * layer.imageData.height) :
    (flattenLayers [layer]).at i =
      getPix (srcOver 1 (putPremul (layer.imageData.at i)) QPix.zero) := by
  have hcomp : List.foldl
      (compositeLayer layer.imageData.width layer.imageData.height)
      (List.replicate (layer.imageData.width * layer.imageData.height) QPix.zero)
      [layer] =
      (List.range (layer.imageData.width * layer.imageData.height)).map
        (fun j => srcOver layer.opacity (putPremul (layer.imageData.at j))
          ((List.replicate (layer.imageData.width * layer.imageData.height)
            QPix.zero).getD j QPix.zero)) := by
    show compositeLayer _ _ _ layer = _
    simp only [compositeLayer]
    rw [if_pos hvis]
  show ((List.foldl (compositeLayer layer.imageData.width layer.imageData.height)
      (List.replicate (layer.imageData.width * layer.imageData.height) QPix.zero)
      [layer]).map getPix).getD i RGBA.transparent = _
  rw [hcomp]
  rw [getD_eq_of_lt (by simpa using hi)]
  have hrep : (List.replicate (layer.imageData.width * layer.imageData.height)
      QPix.zero).getD i QPix.zero = QPix.zero := by
    rw [getD_eq_of_lt (by simpa using hi)]
    exact List.getElem_replicate ..
  simp only [List.getElem_map, List.getElem_range]
  rw [hop, hrep]

/-- C9 (amended): flattening a single fully-visible, opacity-1 layer keeps
the dimensions and the alpha channel of every pixel, and reproduces every
pixel whose alpha is 255 exactly.  (Pixels with alpha below 255 lose their
RGB to the canvas's premultiplied storage, so exact equality needs the
alpha-255 restriction; the embedding is pure, so the input layer is never
modified.) -/
theorem flattenLayers_single_spec (layer : Layer)
    (hvis : layer.visible = true) (hop : layer.opacity = 1)
    (hbytes : ∀ p ∈ layer.imageData.data,
      p.r ≤ 255 ∧ p.g ≤ 255 ∧ p.b ≤ 255 ∧ p.a ≤ 255)
    (hlen : layer.imageData.data.length =
      layer.imageData.width * layer.imageData.height) :
    (flattenLayers [layer]).width = layer.imageData.width ∧
    (flattenLayers [layer]).height = layer.imageData.height ∧
    ∀ i < layer.imageData.width * layer.imageData.height,
      ((flattenLayers [layer]).at i).a = (layer.imageData.at i).a ∧
      ((layer.imageData.at i).a = 255 →
        (flattenLayers [layer]).at i = layer.imageData.at i) := by
  refine ⟨rfl, rfl, ?_⟩
  intro i hi
  have hmem : layer.imageData.at i ∈ layer.imageData.data := by
    rw [Img.at, getD_eq_of_lt (by omega)]
    exact List.getElem_mem _
  obtain ⟨hr, hg, hb, ha⟩ := hbytes _ hmem
  rw [flattenLayers_single_at layer hvis hop i hi, srcOver_one_zero]
  constructor
  · exact getPix_alpha (putPremul (layer.imageData.at i)) ha
  · intro h255
    rw [putPremul_full h255]
    exact getPix_byte_full h255 hr hg hb

/-- Witness for C9 on a 1×1 opaque layer. -/
theorem flattenLayers_single_spec_witness :
    (flattenLayers [⟨"layer_1_0", "Layer 1", ⟨1, 1, [⟨7, 8, 9, 255⟩]⟩,
      true, 1⟩]).width = 1 ∧
    (flattenLayers [⟨"layer_1_0", "Layer 1", ⟨1, 1, [⟨7, 8, 9, 255⟩]⟩,
      true, 1⟩]).height = 1 ∧
    ∀ i < 1 * 1,
      ((flattenLayers [⟨"layer_1_0", "Layer 1", ⟨1, 1, [⟨7, 8, 9, 255⟩]⟩,
        true, 1⟩]).at i).a = (Img.at ⟨1, 1, [⟨7, 8, 9, 255⟩]⟩ i).a ∧
      ((Img.at ⟨1, 1, [⟨7, 8, 9, 255⟩]⟩ i).a = 255 →
        (flattenLayers [⟨"layer_1_0", "Layer 1", ⟨1, 1, [⟨7, 8, 9, 255⟩]⟩,
          true, 1⟩]).at i = Img.at ⟨1, 1, [⟨7, 8, 9, 255⟩]⟩ i) :=
  flattenLayers_single_spec
    ⟨"layer_1_0", "Layer 1", ⟨1, 1, [⟨7, 8, 9, 255⟩]⟩, true, 1⟩
    (by decide) rfl (by decide) (by decide)

/-- C9 counterexample: a single visible opacity-1 layer whose one pixel is
`(255,0,0,0)` (red hue, fully transparent) reads back as `(0,0,0,0)` after
flattening — the canvas's premultiplied storage cannot keep RGB of a
zero-alpha pixel — so `flatten([layer])` is not pixel-for-pixel equal to the
layer's buffer. -/
theorem flattenLayers_counterexample :
    (flattenLayers [⟨"layer_1_0", "Layer 1", ⟨1, 1, [⟨255, 0, 0, 0⟩]⟩,
      true, 1⟩]).at 0 = RGBA.transparent ∧
    Img.at ⟨1, 1, [⟨255, 0, 0, 0⟩]⟩ 0 = ⟨255, 0, 0, 0⟩ ∧
    RGBA.transparent ≠ ⟨255, 0, 0, 0⟩ := by
  refine ⟨?_, by decide, by decide⟩
  rw [flattenLayers_single_at _ rfl rfl 0 (by decide), srcOver_one_zero]
  exact getPix_byte_zero rfl

theorem findIdx?_cons_map (p : α → Bool) (a : α) (l : List α) :
    (a :: l).findIdx? p = if p a then some 0 else (l.findIdx? p).map (· + 1) := by
  rw [List.findIdx?_cons, List.findIdx?_succ]

theorem countP_one_remove (p : α → Bool) (l : List α)
    (h : l.countP p = 1) :
    ∃ i, l.findIdx? p = some i ∧ i < l.length ∧
      (l.filter (fun e => !(p e))).length = l.length - 1 := by
  induction l with
  | nil => simp at h
  | cons a l ih =>
    rw [List.countP_cons] at h
    rw [findIdx?_cons_map, List.filter_cons]
    by_cases hpa : p a = true
    · have hl0 : l.countP p = 0 := by
        simpa [hpa] using h
      refine ⟨0, by rw [if_pos hpa], by simp, ?_⟩
      have hkeep : l.filter (fun e => !(p e)) = l := by
        refine List.filter_eq_self.mpr ?_
        intro x hx
        simpa using List.countP_eq_zero.mp hl0 x hx
      rw [if_neg (by simp [hpa]), hkeep]
      simp
    · have hpa' : p a = false := by simpa using hpa
      have hl1 : l.countP p = 1 := by
        simpa [hpa'] using h
      obtain ⟨i, hf, hlen, hflen⟩ := ih hl1
      refine ⟨i + 1, ?_, by simp; omega, ?_⟩
      · rw [if_neg hpa, hf]
        rfl
      · rw [if_pos (by simp [hpa'])]
        simp only [List.length_cons]
        omega

theorem bankIndexValid_some {s : AppState} {e : Int}
    (he : s.editingBankIndex = some e) (h : bankIndexValid s = true) :
    0 ≤ e ∧ e < (s.sprites.length : Int) := by
  rw [bankIndexValid, he] at h
  simpa [Bool.and_eq_true, decide_eq_true_eq] using h

theorem bankIndexValid_of (s : AppState)
    (h : s.editingBankIndex = none ∨
      ∃ e, s.editingBankIndex = some e ∧ 0 ≤ e ∧ e < (s.sprites.length : Int)) :
    bankIndexValid s = true := by
  rcases h with h | ⟨e, he, h1, h2⟩
  · rw [bankIndexValid, h]
  · rw [bankIndexValid, he]
    simp [h1, h2]

/-- C10 (amended: `REMOVE_SPRITE` needs its id to occur exactly once, and
`REORDER_SPRITES` needs in-range indices): every sprite-bank action maps a
state whose `editingBankIndex` is null or a valid sprite index to another
such state. -/
theorem bank_index_invariant (s : AppState) (a : AppAction)
    (hvalid : bankIndexValid s = true) (hok : bankActionOk s a) :
    bankIndexValid (appReducer s a) = true := by
  cases a with
  | saveToBank entry =>
    apply bankIndexValid_of
    right
    refine ⟨(s.sprites ++ [entry]).length - 1, ?_, ?_, ?_⟩
    · simp [appReducer, appReducerF]
    · simp [List.length_append]
    · simp [appReducer, appReducerF, List.length_append]
  | updateInBank d =>
    cases he : s.editingBankIndex with
    | none =>
      simpa [appReducer, appReducerF, he] using hvalid
    | some idx =>
      obtain ⟨h0, hlen⟩ := bankIndexValid_some he hvalid
      have hcond : ¬(idx < 0 ∨ idx ≥ (s.sprites.length : Int)) := by omega
      apply bankIndexValid_of
      right
      refine ⟨idx, ?_, h0, ?_⟩
      · simp [appReducer, appReducerF, he, hcond, he]
      · simp [appReducer, appReducerF, he, hcond, List.length_set]
        omega
  | removeSprite id =>
    obtain ⟨i, hfind, hilen, hflen⟩ := countP_one_remove _ _ hok
    have hred : appReducer s (.removeSprite id) =
        { s with
          sprites := s.sprites.filter (fun e => !(e.id == id))
          editingBankIndex := removeAdjust (i : Int) s.editingBankIndex } := by
      simp [appReducer, appReducerF, hfind]
    rw [hred]
    apply bankIndexValid_of
    cases he : s.editingBankIndex with
    | none =>
      left
      simp [removeAdjust, he]
    | some e =>
      obtain ⟨h0, hlen⟩ := bankIndexValid_some he hvalid
      by_cases hie : ((i : Int) == e) = true
      · left
        simp [removeAdjust, he, hie]
      · have hne : (i : Int) ≠ e := by simpa using hie
        right
        by_cases hlt : (i : Int) < e
        · refine ⟨e - 1, ?_, by omega, ?_⟩
          · simp [removeAdjust, he, hie, hlt]
          · simp only [hflen]
            omega
        · refine ⟨e, ?_, h0, ?_⟩
          · simp [removeAdjust, he, hie, hlt]
          · simp only [hflen]
            omega
  | duplicateSprite id clone =>
    cases hfind : s.sprites.findIdx? (fun e => e.id == id) with
    | none =>
      simpa [appReducer, appReducerF, hfind] using hvalid
    | some i =>
      apply bankIndexValid_of
      have hlen2 : (s.sprites.take (i + 1) ++
          clone :: s.sprites.drop (i + 1)).length = s.sprites.length + 1 := by
        simp [List.length_append, List.length_take, List.length_drop]
        omega
      cases he : s.editingBankIndex with
      | none =>
        left
        simp [appReducer, appReducerF, hfind, he]
      | some e =>
        obtain ⟨h0, hlen⟩ := bankIndexValid_some he hvalid
        right
        refine ⟨e, ?_, h0, ?_⟩
        · simp [appReducer, appReducerF, hfind, he]
        · simp only [appReducer, appReducerF, hfind, Option.getD_some, hlen2]
          omega
  | renameSprite id name =>
    cases he : s.editingBankIndex with
    | none =>
      apply bankIndexValid_of
      left
      simp [appReducer, appReducerF, he]
    | some e =>
      obtain ⟨h0, hlen⟩ := bankIndexValid_some he hvalid
      apply bankIndexValid_of
      right
      refine ⟨e, ?_, h0, ?_⟩
      · simp [appReducer, appReducerF, he]
      · simp [appReducer, appReducerF, List.length_map]
        omega
  | reorderSprites fromIndex toIndex =>
    obtain ⟨hf, ht⟩ := hok
    have hget : s.sprites[fromIndex]? = some s.sprites[fromIndex] :=
      List.getElem?_eq_getElem hf
    have hlen2 : ((s.sprites.take fromIndex ++ s.sprites.drop (fromIndex + 1)).take
          toIndex ++ s.sprites[fromIndex] ::
        (s.sprites.take fromIndex ++ s.sprites.drop (fromIndex + 1)).drop
          toIndex).length = s.sprites.length := by
      simp [List.length_append, List.length_take, List.length_drop]
      omega
    have hred : appReducer s (.reorderSprites fromIndex toIndex) =
        { s with
          sprites := (s.sprites.take fromIndex ++
            s.sprites.drop (fromIndex + 1)).take toIndex ++
            s.sprites[fromIndex] :: (s.sprites.take fromIndex ++
              s.sprites.drop (fromIndex + 1)).drop toIndex
          editingBankIndex := reorderAdjust fromIndex toIndex s.editingBankIndex } := by
      simp [appReducer, appReducerF, hget]
    rw [hred]
    apply bankIndexValid_of
    cases he : s.editingBankIndex with
    | none =>
      left
      simp [reorderAdjust, he]
    | some e =>
      obtain ⟨h0, hlen⟩ := bankIndexValid_some he hvalid
      right
      by_cases hef : (e == (fromIndex : Int)) = true
      · refine ⟨(toIndex : Int), ?_, by omega, ?_⟩
        · simp [reorderAdjust, he, hef]
        · simp only [hlen2]
          omega
      · by_cases hc1 : (fromIndex : Int) < e ∧ (toIndex : Int) ≥ e
        · refine ⟨e - 1, ?_, by omega, ?_⟩
          · simp [reorderAdjust, he, hef, hc1]
          · simp only [hlen2]
            omega
        · by_cases hc2 : (fromIndex : Int) > e ∧ (toIndex : Int) ≤ e
          · have hne : e ≠ (fromIndex : Int) := by simpa using hef
            refine ⟨e + 1, ?_, by omega, ?_⟩
            · simp [reorderAdjust, he, hef, hc1, hc2]
            · simp only [hlen2]
              omega
          · refine ⟨e, ?_, h0, ?_⟩
            · simp [reorderAdjust, he, hef, hc1, hc2]
            · simp only [hlen2]
              omega
  | aiImport entries =>
    cases he : s.editingBankIndex with
    | none =>
      apply bankIndexValid_of
      left
      simp [appReducer, appReducerF, he]
    | some e =>
      obtain ⟨h0, hlen⟩ := bankIndexValid_some he hvalid
      apply bankIndexValid_of
      right
      refine ⟨e, ?_, h0, ?_⟩
      · simp [appReducer, appReducerF, he]
      · simp [appReducer, appReducerF, List.length_append]
        omega
  | clearAllSprites =>
    apply bankIndexValid_of
    left
    simp [appReducer, appReducerF]
  | setImage x => exact hok.elim
  | setGridSize x => exact hok.elim
  | setTileCountX x => exact hok.elim
  | setTileCountY x => exact hok.elim
  | setSelectedTile x => exact hok.elim
  | setTileData x => exact hok.elim
  | setActiveTool x => exact hok.elim
  | setActiveColor x => exact hok.elim
  | setSprites x => exact hok.elim
  | setEditingBankIndex x => exact hok.elim
  | setShowExportModal x => exact hok.elim
  | setShowNewProjectModal x => exact hok.elim
  | setShowAIImportModal x => exact hok.elim
  | loadImage x => exact hok.elim
  | newProject x y => exact hok.elim
  | selectTile x y z => exact hok.elim
  | clearTile => exact hok.elim
  | selectBankSprite x y => exact hok.elim
  | aiLoadAsTileset x => exact hok.elim
  | addLayer => exact hok.elim
  | removeLayer x => exact hok.elim
  | setActiveLayer x => exact hok.elim
  | setLayerVisibility x y => exact hok.elim
  | setLayerOpacity x y => exact hok.elim
  | setLayerName x y => exact hok.elim
  | reorderLayers x y => exact hok.elim
  | updateActiveLayer x => exact hok.elim
  | commitStroke => exact hok.elim

theorem undoReducer_sum_le (s : UndoState) (a : UndoAction)
    (h : s.past.length + s.future.length ≤ MAX_HISTORY) :
    (undoReducer s a).past.length + (undoReducer s a).future.length ≤
      MAX_HISTORY := by
  cases a with
  | undo =>
    simp only [undoReducer]
    split
    next => exact h
    next h0 =>
      simp only [List.length_dropLast, List.length_cons]
      omega
  | redo =>
    simp only [undoReducer]
    split
    next => exact h
    next h0 =>
      simp only [List.length_append, List.length_cons, List.length_nil,
        List.length_drop]
      omega
  | app act =>
    simp only [undoReducer]
    split
    next => exact h
    next newPresent heq =>
      split
      next =>
        split
        next hlen =>
          simp only [List.length_append, List.length_cons, List.length_nil] at hlen
          simp only [List.length_drop, List.length_append, List.length_cons,
            List.length_nil]
          omega
        next hlen =>
          simp only [List.length_append, List.length_cons, List.length_nil] at hlen
          simp only [List.length_append, List.length_cons, List.length_nil]
          omega
      next => exact h

theorem foldl_undoReducer_sum_le (acts : List UndoAction) (s : UndoState)
    (h : s.past.length + s.future.length ≤ MAX_HISTORY) :
    (acts.foldl undoReducer s).past.length +
      (acts.foldl undoReducer s).future.length ≤ MAX_HISTORY := by
  induction acts generalizing s with
  | nil => exact h
  | cons a acts ih => exact ih _ (undoReducer_sum_le s a h)

set_option maxHeartbeats 4000000 in
set_option maxRecDepth 100000 in
/-- C2: from the initial undo state, `past` never exceeds `MAX_HISTORY = 50`
snapshots (in fact `|past| + |future| ≤ 50` is invariant); pushing 51
undoable edits leaves exactly 50 entries, with the oldest snapshot (the
pre-edit state, 0 sprites) evicted so the head snapshot holds 1 sprite. -/
theorem history_bound_spec (s0 : AppState) (acts : List UndoAction) :
    (acts.foldl undoReducer (createUndoState s0)).past.length ≤ MAX_HISTORY ∧
    ((List.replicate 51 (UndoAction.app (.saveToBank
        ⟨"sprite_0_0", "sprite_000", 1, 1, ⟨1, 1, [⟨0, 0, 0, 0⟩]⟩⟩))).foldl
      undoReducer (createUndoState initialState)).past.length = 50 ∧
    (((List.replicate 51 (UndoAction.app (.saveToBank
        ⟨"sprite_0_0", "sprite_000", 1, 1, ⟨1, 1, [⟨0, 0, 0, 0⟩]⟩⟩))).foldl
      undoReducer (createUndoState initialState)).past.headD
        ⟨none, [], [], none, none⟩).sprites.length = 1 := by
  refine ⟨?_, by decide, by decide⟩
  have := foldl_undoReducer_sum_le acts (createUndoState s0) (by simp [createUndoState])
  omega

set_option maxHeartbeats 1000000 in
/-- C1 fails in the code: a committed stroke never creates a history entry.
`COMMIT_STROKE` returns the same state object, and `undoReducer` early
returns on reference equality before consulting `UNDOABLE_ACTIONS`, so the
snapshot trigger is dead code.  After three stroke edits
(`SET_TILE_DATA` + `COMMIT_STROKE`) of a buffer starting at pixel value 0,
three undos leave the buffer at the final stroke (pixel value 3) with an
empty `past`, instead of restoring the pre-edit buffer. -/
theorem commit_stroke_undo_bug :
    (([.app (.setTileData (some ⟨1, 1, [⟨1, 0, 0, 255⟩]⟩)), .app .commitStroke,
       .app (.setTileData (some ⟨1, 1, [⟨2, 0, 0, 255⟩]⟩)), .app .commitStroke,
       .app (.setTileData (some ⟨1, 1, [⟨3, 0, 0, 255⟩]⟩)), .app .commitStroke,
       .undo, .undo, .undo] : List UndoAction).foldl undoReducer
      (createUndoState { initialState with
        tileData := some ⟨1, 1, [⟨0, 0, 0, 255⟩]⟩ })).present.tileData =
      some ⟨1, 1, [⟨3, 0, 0, 255⟩]⟩ ∧
    (([.app (.setTileData (some ⟨1, 1, [⟨1, 0, 0, 255⟩]⟩)), .app .commitStroke,
       .app (.setTileData (some ⟨1, 1, [⟨2, 0, 0, 255⟩]⟩)), .app .commitStroke,
       .app (.setTileData (some ⟨1, 1, [⟨3, 0, 0, 255⟩]⟩)), .app .commitStroke,
       .undo, .undo, .undo] : List UndoAction).foldl undoReducer
      (createUndoState { initialState with
        tileData := some ⟨1, 1, [⟨0, 0, 0, 255⟩]⟩ })).past.length = 0 ∧
    some (⟨1, 1, [⟨3, 0, 0, 255⟩]⟩ : Img) ≠ some (⟨1, 1, [⟨0, 0, 0, 255⟩]⟩ : Img) := by
  refine ⟨by decide, by decide, by decide⟩

theorem bank_index_counterexample :
    bankIndexValid { initialState with
      sprites := [⟨"s1", "n", 1, 1, ⟨1, 1, [⟨0, 0, 0, 0⟩]⟩⟩]
      editingBankIndex := some 0 } = true ∧
    (appReducer { initialState with
      sprites := [⟨"s1", "n", 1, 1, ⟨1, 1, [⟨0, 0, 0, 0⟩]⟩⟩]
      editingBankIndex := some 0 } (.removeSprite "zzz")).editingBankIndex =
      some (-1) ∧
    bankIndexValid (appReducer { initialState with
      sprites := [⟨"s1", "n", 1, 1, ⟨1, 1, [⟨0, 0, 0, 0⟩]⟩⟩]
      editingBankIndex := some 0 } (.removeSprite "zzz")) = false := by
  refine ⟨by decide, by decide, by decide⟩

theorem bank_index_invariant_witness :
    bankIndexValid { initialState with
      sprites := [⟨"s1", "n", 1, 1, ⟨1, 1, [⟨0, 0, 0, 0⟩]⟩⟩]
      editingBankIndex := some 0 } = true ∧
    bankActionOk { initialState with
      sprites := [⟨"s1", "n", 1, 1, ⟨1, 1, [⟨0, 0, 0, 0⟩]⟩⟩]
      editingBankIndex := some 0 } (.removeSprite "s1") ∧
    bankIndexValid (appReducer { initialState with
      sprites := [⟨"s1", "n", 1, 1, ⟨1, 1, [⟨0, 0, 0, 0⟩]⟩⟩]
      editingBankIndex := some 0 } (.removeSprite "s1")) = true :=
  ⟨by decide, by decide, bank_index_invariant _ _ (by decide) (by decide)⟩

